import Mathlib

/-!
# Auto exposure and auto white balance (`cv_ae_awb.c`)

A shallow embedding of `cv_ae_awb_periodic` from
`sw/airborne/modules/computer_vision/cv_ae_awb.c`.

Conventions of the embedding:

* `uint32_t` values are natural numbers; every `uint32_t` operation that can
  wrap is reduced modulo `2 ^ 32` (`u32_add`, `u32_sub`).
* `float` values are rational numbers.  Two readings of the float code are
  given.  In the first the float operations are exact; it is used for
  statements about which branch runs and about the value computed up to
  rounding.  In the second (names ending in `_f32`) every operation rounds its
  exact result to binary32, or to binary64 where C computes in `double`, with
  round-to-nearest, ties to even; it is used where rounding decides the
  statement: a comparison with the threshold `0.002f` or a strict inequality
  between computed values.  Infinities, NaN, overflow and subnormal numbers are
  outside both, so statements are made for a non-zero divisor wherever the C
  code divides.
* The global `mt9f002` and the two driver calls are explicit state: a `World`
  holds the sensor structure and the list of driver calls issued so far.
* Where a statement is about a zero divisor or about the indices read from
  `cdf`, instrumented variants of the same code are used: divisions that
  return `none` on a zero divisor, and loops that list the indices at which
  their body runs.
-/

set_option maxRecDepth 100000

namespace CvAeAwb

/-! ## Constants -/

/-- Number of histogram bins used: `#define MAX_HIST_Y (256-10)`. -/
def MAX_HIST_Y : Nat := 256 - 10

/-- Lower gain bound: `#define CV_AWB_MIN_GAIN 2`. -/
def CV_AWB_MIN_GAIN : ℚ := 2

/-- Upper gain bound: `#define CV_AWB_MAX_GAIN 75`. -/
def CV_AWB_MAX_GAIN : ℚ := 75

/-- Number of values of a `uint32_t`. -/
def UINT32_MOD : Nat := 2 ^ 32

/-! ## Machine arithmetic -/

/-- Addition of two `uint32_t` values. -/
def u32_add (a b : Nat) : Nat := (a + b) % UINT32_MOD

/-- Subtraction of two `uint32_t` values (wraps below zero). -/
def u32_sub (a b : Nat) : Nat := (a % UINT32_MOD + (UINT32_MOD - b % UINT32_MOD)) % UINT32_MOD

/-- Modelled from the spec: the macro `Bound(_x, _min, _max)` is not defined in
this file; the spec calls it a clamp of the value to `[_min, _max]`.  The upper
bound is tested first. -/
def Bound (x lo hi : ℚ) : ℚ :=
  if x > hi then hi else if x < lo then lo else x

/-! ## Data -/

/-- Modelled from the spec: the declaration of `struct isp_yuv_stats_t` is not
in this file.  The fields are the ones `cv_ae_awb_periodic` reads; each is a
`uint32_t`, and `ae_histogram_Y` is an array indexed by the bin number. -/
structure isp_yuv_stats_t where
  awb_sum_U : Nat
  awb_sum_V : Nat
  awb_nb_grey_pixels : Nat
  nb_valid_Y : Nat
  ae_histogram_Y : Nat → Nat

/-- Modelled from the spec: the declaration of the sensor structure `mt9f002`
is not in this file.  The fields are the ones `cv_ae_awb_periodic` touches,
all of type `float`. -/
structure mt9f002_t where
  real_exposure : ℚ
  target_exposure : ℚ
  gain_blue : ℚ
  gain_red : ℚ
  deriving DecidableEq

/-- The two driver entry points called by `cv_ae_awb_periodic`, each with the
contents of `mt9f002` at the time of the call. -/
inductive DriverCall where
  | mt9f002_set_exposure (m : mt9f002_t)
  | mt9f002_set_gains (m : mt9f002_t)
  deriving DecidableEq

/-- The global sensor structure together with the driver calls made so far
(oldest first). -/
structure World where
  mt9f002 : mt9f002_t
  calls : List DriverCall
  deriving DecidableEq

/-! ## Auto exposure (lines 53-98) -/

/-- The array `cdf` of lines 55-59: `cdf[0] = h[0]`,
`cdf[i] = cdf[i - 1] + h[i]`, stored in `uint32_t`. -/
def cdf (h : Nat → Nat) : Nat → Nat
  | 0 => h 0 % UINT32_MOD
  | i + 1 => u32_add (cdf h i) (h (i + 1))

/-- Line 62: `cdf[MAX_HIST_Y - 1] - cdf[MAX_HIST_Y - 21]`. -/
def bright_pixels (s : isp_yuv_stats_t) : Nat :=
  u32_sub (cdf s.ae_histogram_Y (MAX_HIST_Y - 1)) (cdf s.ae_histogram_Y (MAX_HIST_Y - 21))

/-- Line 63: `cdf[MAX_HIST_Y - 1] - cdf[MAX_HIST_Y - 6]`. -/
def saturated_pixels (s : isp_yuv_stats_t) : Nat :=
  u32_sub (cdf s.ae_histogram_Y (MAX_HIST_Y - 1)) (cdf s.ae_histogram_Y (MAX_HIST_Y - 6))

/-- Line 64: `nb_valid_Y / 10`. -/
def target_bright_pixels (s : isp_yuv_stats_t) : Nat := s.nb_valid_Y / 10

/-- Line 65: `nb_valid_Y / 400`. -/
def max_saturated_pixels (s : isp_yuv_stats_t) : Nat := s.nb_valid_Y / 400

/-- The loop of lines 74-78, started with index `l` and count `b`:
`while (bright_pixels < target && l > 0) { bright_pixels += cdf[l];
bright_pixels -= cdf[l - 1]; l--; }`.  Returns the final `(bright_pixels, l)`.
The recursion is on `l`, which the loop decrements down to `0`. -/
def under_loop (c : Nat → Nat) (target : Nat) : Nat → Nat → Nat × Nat
  | 0, b => (b, 0)
  | l + 1, b =>
    if b < target then
      under_loop c target l (u32_sub (u32_add b (c (l + 1))) (c l))
    else (b, l + 1)

/-- The loop of lines 84-88, started with index `l` and count `b`:
`while (bright_pixels > target && l < MAX_HIST_Y) { bright_pixels -= cdf[l];
bright_pixels += cdf[l - 1]; l++; }`.  Returns the final `(bright_pixels, l)`.
The first argument bounds the number of iterations; `over_loop_exit` shows
that `MAX_HIST_Y - l` iterations always reach the exit of the loop. -/
def over_loop (c : Nat → Nat) (target : Nat) : Nat → Nat → Nat → Nat × Nat
  | 0, l, b => (b, l)
  | fuel + 1, l, b =>
    if b > target ∧ l < MAX_HIST_Y then
      over_loop c target fuel (l + 1) (u32_add (u32_sub b (c l)) (c (l - 1)))
    else (b, l)

/-- The test of line 69. -/
def saturated (s : isp_yuv_stats_t) : Prop :=
  saturated_pixels s > max_saturated_pixels s

/-- The test of line 71, in `uint32_t` arithmetic. -/
def under_target (s : isp_yuv_stats_t) : Prop :=
  u32_add (bright_pixels s) (target_bright_pixels s / 10) < target_bright_pixels s

/-- The test of line 81, in `uint32_t` arithmetic. -/
def over_target (s : isp_yuv_stats_t) : Prop :=
  u32_sub (bright_pixels s) (target_bright_pixels s / 10) > target_bright_pixels s

instance (s : isp_yuv_stats_t) : Decidable (saturated s) :=
  inferInstanceAs (Decidable (saturated_pixels s > max_saturated_pixels s))

instance (s : isp_yuv_stats_t) : Decidable (under_target s) :=
  inferInstanceAs (Decidable
    (u32_add (bright_pixels s) (target_bright_pixels s / 10) < target_bright_pixels s))

instance (s : isp_yuv_stats_t) : Decidable (over_target s) :=
  inferInstanceAs (Decidable
    (u32_sub (bright_pixels s) (target_bright_pixels s / 10) > target_bright_pixels s))

/-- Value of `l` after the loop of lines 73-78. -/
def under_final_index (s : isp_yuv_stats_t) : Nat :=
  (under_loop (cdf s.ae_histogram_Y) (target_bright_pixels s)
    (MAX_HIST_Y - 11) (bright_pixels s)).2

/-- Value of `l` after the loop of lines 83-88. -/
def over_final_index (s : isp_yuv_stats_t) : Nat :=
  (over_loop (cdf s.ae_histogram_Y) (target_bright_pixels s)
    (MAX_HIST_Y - (MAX_HIST_Y - 20)) (MAX_HIST_Y - 20) (bright_pixels s)).2

/-- Line 70 in exact arithmetic:
`1.0f - ((float)(saturated_pixels - max_saturated_pixels)) / nb_valid_Y`.  The
value the code computes is the rounding `saturation_adjustment_f32` of it. -/
def saturation_adjustment (s : isp_yuv_stats_t) : ℚ :=
  1 - ((u32_sub (saturated_pixels s) (max_saturated_pixels s) : Nat) : ℚ) / (s.nb_valid_Y : ℚ)

/-- Line 80: `(float)(MAX_HIST_Y - 11 + 1) / (l + 1)`. -/
def under_adjustment (s : isp_yuv_stats_t) : ℚ :=
  ((MAX_HIST_Y - 11 + 1 : Nat) : ℚ) / ((under_final_index s + 1 : Nat) : ℚ)

/-- Lines 90-91: `adjustment = (float)(MAX_HIST_Y - 20) / l; adjustment *= adjustment;`. -/
def over_adjustment (s : isp_yuv_stats_t) : ℚ :=
  (((MAX_HIST_Y - 20 : Nat) : ℚ) / (over_final_index s : ℚ)) *
    (((MAX_HIST_Y - 20 : Nat) : ℚ) / (over_final_index s : ℚ))

/-- The variable `adjustment` at line 93, before `Bound` is applied
(lines 66-92). -/
def adjustment (s : isp_yuv_stats_t) : ℚ :=
  if saturated s then saturation_adjustment s
  else if under_target s then under_adjustment s
  else if over_target s then over_adjustment s
  else 1

/-- The variable `adjustment` after line 95: `Bound(adjustment, 1 / 16.0f, 4.0)`. -/
def bounded_adjustment (s : isp_yuv_stats_t) : ℚ :=
  Bound (adjustment s) (1 / 16) 4

/-- The auto exposure block (lines 53-98): writes `target_exposure` and calls
`mt9f002_set_exposure(&mt9f002)`. -/
def auto_exposure (s : isp_yuv_stats_t) (w : World) : World :=
  let m : mt9f002_t :=
    { w.mt9f002 with target_exposure := w.mt9f002.real_exposure * bounded_adjustment s }
  { mt9f002 := m, calls := w.calls ++ [DriverCall.mt9f002_set_exposure m] }

/-! ## Auto white balance (lines 100-122) -/

/-- Lines 102-103 in exact arithmetic:
`((float) sum / (float) awb_nb_grey_pixels) / 256. - 0.5`.  The value the code
computes is `awb_avg_f32`, which rounds the quotient to `float` first. -/
def awb_avg (sum nb_grey : Nat) : ℚ :=
  ((sum : ℚ) / (nb_grey : ℚ)) / 256 - 1 / 2

/-- Line 102. -/
def avgU (s : isp_yuv_stats_t) : ℚ := awb_avg s.awb_sum_U s.awb_nb_grey_pixels

/-- Line 103. -/
def avgV (s : isp_yuv_stats_t) : ℚ := awb_avg s.awb_sum_V s.awb_nb_grey_pixels

/-- Line 104 in exact arithmetic: `float threshold = 0.002f`, read as `0.002`.
The `float` constant itself is `threshold_f32`. -/
def threshold : ℚ := 2 / 1000

/-- Line 105: `float gain = 1.`. -/
def gain : ℚ := 1

/-- The flag `changed` at line 117. -/
def changed (s : isp_yuv_stats_t) : Prop :=
  |avgU s| > threshold ∨ |avgV s| > threshold

instance (s : isp_yuv_stats_t) : Decidable (changed s) :=
  inferInstanceAs (Decidable (|avgU s| > threshold ∨ |avgV s| > threshold))

/-- The auto white balance block (lines 100-122). -/
def auto_white_balance (s : isp_yuv_stats_t) (w : World) : World :=
  let m0 := w.mt9f002
  let m1 : mt9f002_t :=
    if |avgU s| > threshold then { m0 with gain_blue := m0.gain_blue - gain * avgU s } else m0
  let m2 : mt9f002_t :=
    if |avgV s| > threshold then { m1 with gain_red := m1.gain_red - gain * avgV s } else m1
  if changed s then
    let m3 : mt9f002_t :=
      { m2 with gain_blue := Bound m2.gain_blue CV_AWB_MIN_GAIN CV_AWB_MAX_GAIN }
    let m4 : mt9f002_t :=
      { m3 with gain_red := Bound m3.gain_red CV_AWB_MIN_GAIN CV_AWB_MAX_GAIN }
    { mt9f002 := m4, calls := w.calls ++ [DriverCall.mt9f002_set_gains m4] }
  else { mt9f002 := m2, calls := w.calls }

/-! ## The periodic function -/

/-- The function `cv_ae_awb_periodic` with both blocks compiled in
(`CV_AUTO_EXPOSURE` and `CV_AUTO_WHITE_BALANCE` default to `true`).  The
argument `stats` is `some s` when `isp_get_statistics_yuv` returns `0` and
fills in `s`, and `none` otherwise. -/
def cv_ae_awb_periodic (stats : Option isp_yuv_stats_t) (w : World) : World :=
  match stats with
  | none => w
  | some s => auto_white_balance s (auto_exposure s w)

/-! ## Binary floating point -/

/-- Rounding of a rational to the nearest integer, a tie going to the even
one. -/
def round_half_even (q : ℚ) : ℤ :=
  if q - ⌊q⌋ < 1 / 2 then ⌊q⌋
  else if q - ⌊q⌋ > 1 / 2 then ⌊q⌋ + 1
  else if ⌊q⌋ % 2 = 0 then ⌊q⌋ else ⌊q⌋ + 1

/-- Rounding to the nearest binary floating-point number with a significand of
`p` bits, ties to even (the IEEE 754 default mode): for `2 ^ e ≤ |q| < 2 ^ (e + 1)`
the result is the multiple of `2 ^ (e - (p - 1))` nearest to `q`.  The exponent
is unbounded: overflow and subnormal numbers are not modelled. -/
def fl_round (p : ℕ) (q : ℚ) : ℚ :=
  if q = 0 then 0
  else (round_half_even (q / 2 ^ (Int.log 2 |q| - ((p : ℤ) - 1))) : ℚ)
    * 2 ^ (Int.log 2 |q| - ((p : ℤ) - 1))

/-- Rounding to a `float` (binary32: 24-bit significand). -/
def f32_round (q : ℚ) : ℚ := fl_round 24 q

/-- Rounding to a `double` (binary64: 53-bit significand). -/
def f64_round (q : ℚ) : ℚ := fl_round 53 q

/-! ## The float code with binary32 rounding -/

/-- The quotient of line 70, `((float)(saturated_pixels - max_saturated_pixels))
/ yuv_stats.nb_valid_Y`: both operands are converted to `float` and the
division is a `float` division. -/
def saturation_quotient_f32 (s : isp_yuv_stats_t) : ℚ :=
  f32_round (f32_round ((u32_sub (saturated_pixels s) (max_saturated_pixels s) : Nat) : ℚ)
    / f32_round (s.nb_valid_Y : ℚ))

/-- Line 70 in `float` arithmetic: `1.0f - quotient`. -/
def saturation_adjustment_f32 (s : isp_yuv_stats_t) : ℚ :=
  f32_round (1 - saturation_quotient_f32 s)

/-- Line 80 in `float` arithmetic: `(float)(MAX_HIST_Y - 11 + 1) / (l + 1)`. -/
def under_adjustment_f32 (s : isp_yuv_stats_t) : ℚ :=
  f32_round (f32_round ((MAX_HIST_Y - 11 + 1 : Nat) : ℚ)
    / f32_round ((under_final_index s + 1 : Nat) : ℚ))

/-- Lines 90-91 in `float` arithmetic:
`adjustment = (float)(MAX_HIST_Y - 20) / l; adjustment *= adjustment;`. -/
def over_adjustment_f32 (s : isp_yuv_stats_t) : ℚ :=
  f32_round
    (f32_round (f32_round ((MAX_HIST_Y - 20 : Nat) : ℚ) / f32_round (over_final_index s : ℚ))
      * f32_round (f32_round ((MAX_HIST_Y - 20 : Nat) : ℚ) / f32_round (over_final_index s : ℚ)))

/-- The variable `adjustment` at line 93 in `float` arithmetic. -/
def adjustment_f32 (s : isp_yuv_stats_t) : ℚ :=
  if saturated s then saturation_adjustment_f32 s
  else if under_target s then under_adjustment_f32 s
  else if over_target s then over_adjustment_f32 s
  else f32_round 1

/-- The variable `adjustment` after line 95 in `float` arithmetic; the bounds
`1 / 16.0f` and `4.0` are exact. -/
def bounded_adjustment_f32 (s : isp_yuv_stats_t) : ℚ :=
  Bound (adjustment_f32 s) (1 / 16) 4

/-- The auto exposure block (lines 53-98) in `float` arithmetic: the product
of line 96 is a `float` product. -/
def auto_exposure_f32 (s : isp_yuv_stats_t) (w : World) : World :=
  let m : mt9f002_t :=
    { w.mt9f002 with
      target_exposure := f32_round (w.mt9f002.real_exposure * bounded_adjustment_f32 s) }
  { mt9f002 := m, calls := w.calls ++ [DriverCall.mt9f002_set_exposure m] }

/-- Lines 102-103 as C evaluates them:
`float avg = ((float) sum / (float) awb_nb_grey_pixels) / 256. - 0.5;`.  The
first division is a `float` division of the two converted counts; `256.` and
`0.5` are `double` constants, so the second division and the subtraction are
done in `double`; the result is converted to `float` by the assignment. -/
def awb_avg_f32 (sum nb_grey : Nat) : ℚ :=
  f32_round (f64_round (f64_round
    (f32_round (f32_round (sum : ℚ) / f32_round (nb_grey : ℚ)) / 256) - 1 / 2))

/-- Line 102 in `float` arithmetic. -/
def avgU_f32 (s : isp_yuv_stats_t) : ℚ := awb_avg_f32 s.awb_sum_U s.awb_nb_grey_pixels

/-- Line 103 in `float` arithmetic. -/
def avgV_f32 (s : isp_yuv_stats_t) : ℚ := awb_avg_f32 s.awb_sum_V s.awb_nb_grey_pixels

/-- Line 104: `float threshold = 0.002f`, the `float` nearest to `0.002`. -/
def threshold_f32 : ℚ := f32_round (2 / 1000)

/-- Line 105: `float gain = 1.`. -/
def gain_f32 : ℚ := f32_round 1

/-- Lines 108-121 in `float` arithmetic, on the local variables `avgU`, `avgV`,
`threshold` and `gain`: the products and the subtractions of lines 109 and 113
are `float` operations, the comparisons of lines 108 and 112 are exact. -/
def awb_update_f32 (aU aV thr g : ℚ) (w : World) : World :=
  let m0 := w.mt9f002
  let m1 : mt9f002_t :=
    if |aU| > thr then
      { m0 with gain_blue := f32_round (m0.gain_blue - f32_round (g * aU)) }
    else m0
  let m2 : mt9f002_t :=
    if |aV| > thr then
      { m1 with gain_red := f32_round (m1.gain_red - f32_round (g * aV)) }
    else m1
  if |aU| > thr ∨ |aV| > thr then
    let m3 : mt9f002_t :=
      { m2 with gain_blue := Bound m2.gain_blue CV_AWB_MIN_GAIN CV_AWB_MAX_GAIN }
    let m4 : mt9f002_t :=
      { m3 with gain_red := Bound m3.gain_red CV_AWB_MIN_GAIN CV_AWB_MAX_GAIN }
    { mt9f002 := m4, calls := w.calls ++ [DriverCall.mt9f002_set_gains m4] }
  else { mt9f002 := m2, calls := w.calls }

/-- The auto white balance block (lines 100-122) in `float` arithmetic: the
locals of lines 102-105, then lines 108-121. -/
def auto_white_balance_f32 (s : isp_yuv_stats_t) (w : World) : World :=
  awb_update_f32 (avgU_f32 s) (avgV_f32 s) threshold_f32 gain_f32 w

/-- The function `cv_ae_awb_periodic` in `float` arithmetic. -/
def cv_ae_awb_periodic_f32 (stats : Option isp_yuv_stats_t) (w : World) : World :=
  match stats with
  | none => w
  | some s => auto_white_balance_f32 s (auto_exposure_f32 s w)

/-! ## Instrumented variants

The same code with its float divisions checked for a zero divisor, and the two
search loops with the indices at which their body runs recorded. -/

/-- A `float` division `a / b` that reports a zero divisor as `none`. -/
def fdiv_checked (a b : ℚ) : Option ℚ :=
  if b = 0 then none else some (a / b)

/-- Lines 102-103 with both divisions checked:
`((float) sum / (float) awb_nb_grey_pixels) / 256. - 0.5`. -/
def awb_avg_checked (sum nb_grey : Nat) : Option ℚ :=
  (fdiv_checked (sum : ℚ) (nb_grey : ℚ)).bind fun q =>
    (fdiv_checked q 256).map fun r => r - 1 / 2

/-- The auto white balance block (lines 100-122) with the divisions of lines
102-103 checked: `none` when one of them has a zero divisor.  Both averages are
computed before any test, as in the source. -/
def auto_white_balance_checked (s : isp_yuv_stats_t) (w : World) : Option World :=
  (awb_avg_checked s.awb_sum_U s.awb_nb_grey_pixels).bind fun aU =>
  (awb_avg_checked s.awb_sum_V s.awb_nb_grey_pixels).bind fun aV =>
    let m0 := w.mt9f002
    let m1 : mt9f002_t :=
      if |aU| > threshold then { m0 with gain_blue := m0.gain_blue - gain * aU } else m0
    let m2 : mt9f002_t :=
      if |aV| > threshold then { m1 with gain_red := m1.gain_red - gain * aV } else m1
    if |aU| > threshold ∨ |aV| > threshold then
      let m3 : mt9f002_t :=
        { m2 with gain_blue := Bound m2.gain_blue CV_AWB_MIN_GAIN CV_AWB_MAX_GAIN }
      let m4 : mt9f002_t :=
        { m3 with gain_red := Bound m3.gain_red CV_AWB_MIN_GAIN CV_AWB_MAX_GAIN }
      some { mt9f002 := m4, calls := w.calls ++ [DriverCall.mt9f002_set_gains m4] }
    else some { mt9f002 := m2, calls := w.calls }

/-- The variable `adjustment` at line 93 with the divisions of lines 70, 80 and
90 checked: `none` when the branch taken divides by zero. -/
def adjustment_checked (s : isp_yuv_stats_t) : Option ℚ :=
  if saturated s then
    (fdiv_checked ((u32_sub (saturated_pixels s) (max_saturated_pixels s) : Nat) : ℚ)
      (s.nb_valid_Y : ℚ)).map fun q => 1 - q
  else if under_target s then
    fdiv_checked ((MAX_HIST_Y - 11 + 1 : Nat) : ℚ) ((under_final_index s + 1 : Nat) : ℚ)
  else if over_target s then
    (fdiv_checked ((MAX_HIST_Y - 20 : Nat) : ℚ) (over_final_index s : ℚ)).map fun a => a * a
  else some 1

/-- The values of `l` with which the body of the loop of lines 74-78 runs, in
order; each run reads `cdf[l]` and `cdf[l - 1]`. -/
def under_loop_iters (c : Nat → Nat) (target : Nat) : Nat → Nat → List Nat
  | 0, _ => []
  | l + 1, b =>
    if b < target then
      (l + 1) :: under_loop_iters c target l (u32_sub (u32_add b (c (l + 1))) (c l))
    else []

/-- The values of `l` with which the body of the loop of lines 84-88 runs, in
order; each run reads `cdf[l]` and `cdf[l - 1]`. -/
def over_loop_iters (c : Nat → Nat) (target : Nat) : Nat → Nat → Nat → List Nat
  | 0, _, _ => []
  | fuel + 1, l, b =>
    if b > target ∧ l < MAX_HIST_Y then
      l :: over_loop_iters c target fuel (l + 1) (u32_add (u32_sub b (c l)) (c (l - 1)))
    else []

/-- The variable `bright_pixels` after the loop of lines 73-78. -/
def under_final_bright (s : isp_yuv_stats_t) : Nat :=
  (under_loop (cdf s.ae_histogram_Y) (target_bright_pixels s)
    (MAX_HIST_Y - 11) (bright_pixels s)).1

/-- The variable `bright_pixels` after the loop of lines 83-88. -/
def over_final_bright (s : isp_yuv_stats_t) : Nat :=
  (over_loop (cdf s.ae_histogram_Y) (target_bright_pixels s)
    (MAX_HIST_Y - (MAX_HIST_Y - 20)) (MAX_HIST_Y - 20) (bright_pixels s)).1

/-- The executions of the body of the loop of lines 73-78 in a run on `s`. -/
def under_iters (s : isp_yuv_stats_t) : List Nat :=
  under_loop_iters (cdf s.ae_histogram_Y) (target_bright_pixels s)
    (MAX_HIST_Y - 11) (bright_pixels s)

/-- The executions of the body of the loop of lines 83-88 in a run on `s`. -/
def over_iters (s : isp_yuv_stats_t) : List Nat :=
  over_loop_iters (cdf s.ae_histogram_Y) (target_bright_pixels s)
    (MAX_HIST_Y - (MAX_HIST_Y - 20)) (MAX_HIST_Y - 20) (bright_pixels s)

/-- One run of the body of the loop of lines 74-78 on the pair
`(bright_pixels, l)`: `bright_pixels += cdf[l]; bright_pixels -= cdf[l - 1]; l--;`. -/
def under_body_step (c : Nat → Nat) (p : Nat × Nat) : Nat × Nat :=
  (u32_sub (u32_add p.1 (c p.2)) (c (p.2 - 1)), p.2 - 1)

/-- The initial `bright_pixels` plus the bins `236 - k, ..., 235`, as a
`uint32_t`: the count the downward search holds after `k` runs of its body. -/
def under_search_sum (s : isp_yuv_stats_t) (k : Nat) : Nat :=
  (bright_pixels s + ∑ j in Finset.Ico (236 - k) 236, s.ae_histogram_Y j) % UINT32_MOD

/-- The driver calls that one run of the periodic function adds. -/
def new_calls (s : isp_yuv_stats_t) (w : World) : List DriverCall :=
  (cv_ae_awb_periodic (some s) w).calls.drop w.calls.length

/-- A run of the periodic function commits gains when it calls
`mt9f002_set_gains`. -/
def gains_committed (s : isp_yuv_stats_t) (w : World) : Prop :=
  ∃ m, DriverCall.mt9f002_set_gains m ∈ new_calls s w

/-! ## Concrete inputs -/

/-- Statistics with `n` valid pixels, of which `k` are in bin `bin` and the
others in bin `0`; the chroma sums are `u` and `v` over `g` grey pixels. -/
def stats_two_bins (n k bin u v g : Nat) : isp_yuv_stats_t :=
  { awb_sum_U := u, awb_sum_V := v, awb_nb_grey_pixels := g, nb_valid_Y := n,
    ae_histogram_Y := fun i => if i = bin then k else if i = 0 then n - k else 0 }

/-- A sensor state with exposure `10` and both gains `20`, before any driver call. -/
def world0 : World :=
  { mt9f002 := { real_exposure := 10, target_exposure := 0, gain_blue := 20, gain_red := 20 },
    calls := [] }

/-- Statistics with `n` valid pixels and histogram `h`, no chroma and `100`
grey pixels. -/
def stats_hist (n : Nat) (h : Nat → Nat) : isp_yuv_stats_t :=
  { awb_sum_U := 0, awb_sum_V := 0, awb_nb_grey_pixels := 100, nb_valid_Y := n,
    ae_histogram_Y := h }

/-- The uniform histogram of the spec: one pixel in each of the 246 bins. -/
def stats_uniform : isp_yuv_stats_t :=
  stats_hist 246 (fun i => if i < 246 then 1 else 0)

/-- A frame of `2 ^ 32 - 1` pixels with `2 ^ 32 - 42949672` of them in bin
`230` and the others in bin `0`: `bright_pixels + target / 10` is `2 ^ 32`. -/
def stats_wrap_entry : isp_yuv_stats_t :=
  stats_two_bins 4294967295 4252017624 230 0 0 100

/-- A frame of `2 ^ 32 - 1` pixels, one in bin `235` and the others in bin
`225`: the count of the downward search reaches `2 ^ 32` at bin `225`. -/
def stats_wrap_search : isp_yuv_stats_t :=
  stats_hist 4294967295 (fun i => if i = 235 then 1 else if i = 225 then 4294967294 else 0)


/-! ## Auxiliary lemmas -/

theorem UINT32_MOD_eq : UINT32_MOD = 4294967296 := by
  norm_num [UINT32_MOD]

theorem u32_add_lt (a b : Nat) : u32_add a b < UINT32_MOD := by
  unfold u32_add
  exact Nat.mod_lt _ (by rw [UINT32_MOD_eq]; norm_num)

theorem u32_sub_lt (a b : Nat) : u32_sub a b < UINT32_MOD := by
  unfold u32_sub
  exact Nat.mod_lt _ (by rw [UINT32_MOD_eq]; norm_num)

theorem u32_add_of_lt (a b : Nat) (h : a + b < UINT32_MOD) : u32_add a b = a + b := by
  unfold u32_add
  exact Nat.mod_eq_of_lt h

theorem u32_sub_of_le (a b : Nat) (hab : b ≤ a) (ha : a < UINT32_MOD) :
    u32_sub a b = a - b := by
  unfold u32_sub
  rw [UINT32_MOD_eq] at *
  omega

theorem cdf_lt (h : Nat → Nat) (i : Nat) : cdf h i < UINT32_MOD := by
  cases i with
  | zero => exact Nat.mod_lt _ (by rw [UINT32_MOD_eq]; norm_num)
  | succ i => exact u32_add_lt _ _

/-- The array `cdf` holds the prefix sums of the histogram, modulo `2 ^ 32`. -/
theorem cdf_eq_sum (h : Nat → Nat) (i : Nat) :
    cdf h i = (∑ j in Finset.range (i + 1), h j) % UINT32_MOD := by
  induction i with
  | zero => simp [cdf]
  | succ i ih =>
    rw [Finset.sum_range_succ, cdf, ih, u32_add, Nat.mod_add_mod]

/-- A difference of two `cdf` entries is the sum of the bins between them,
modulo `2 ^ 32`. -/
theorem cdf_sub (h : Nat → Nat) (i j : Nat) (hij : i ≤ j) :
    u32_sub (cdf h j) (cdf h i) = (∑ k in Finset.Ico (i + 1) (j + 1), h k) % UINT32_MOD := by
  have hsplit : ∑ k in Finset.range (j + 1), h k
      = ∑ k in Finset.range (i + 1), h k + ∑ k in Finset.Ico (i + 1) (j + 1), h k := by
    rw [Finset.range_eq_Ico]
    exact (Finset.sum_Ico_consecutive h (Nat.zero_le _) (by omega)).symm
  rw [cdf_eq_sum, cdf_eq_sum, hsplit]
  generalize ∑ k in Finset.range (i + 1), h k = S
  generalize ∑ k in Finset.Ico (i + 1) (j + 1), h k = T
  unfold u32_sub
  rw [UINT32_MOD_eq]
  omega

theorem Bound_mem (x lo hi : ℚ) (h : lo ≤ hi) :
    lo ≤ Bound x lo hi ∧ Bound x lo hi ≤ hi := by
  unfold Bound
  split_ifs with h1 h2
  · exact ⟨h, le_refl _⟩
  · exact ⟨le_refl _, h⟩
  · exact ⟨not_lt.mp h2, not_lt.mp h1⟩

/-- For `lo ≤ hi` the macro `Bound` is the usual clamp. -/
theorem Bound_eq_max_min (x lo hi : ℚ) (h : lo ≤ hi) :
    Bound x lo hi = max lo (min x hi) := by
  unfold Bound
  split_ifs with h1 h2
  · rw [min_eq_right (le_of_lt h1), max_eq_right h]
  · rw [min_eq_left (not_lt.mp h1), max_eq_left (le_of_lt h2)]
  · rw [min_eq_left (not_lt.mp h1), max_eq_right (not_lt.mp h2)]

theorem Bound_of_mem (x lo hi : ℚ) (h1 : lo ≤ x) (h2 : x ≤ hi) : Bound x lo hi = x := by
  unfold Bound
  rw [if_neg (not_lt.mpr h2), if_neg (not_lt.mpr h1)]

/-- The index returned by the downward search is at most the starting index. -/
theorem under_loop_index_le (c : Nat → Nat) (t : Nat) (l b : Nat) :
    (under_loop c t l b).2 ≤ l := by
  induction l generalizing b with
  | zero => simp [under_loop]
  | succ l ih =>
    unfold under_loop
    split_ifs
    · exact Nat.le_succ_of_le (ih _)
    · exact le_refl _

/-- The downward search ends where the condition of its `while` is false. -/
theorem under_loop_exit (c : Nat → Nat) (t : Nat) (l b : Nat) :
    ¬ ((under_loop c t l b).1 < t ∧ 0 < (under_loop c t l b).2) := by
  induction l generalizing b with
  | zero => simp [under_loop]
  | succ l ih =>
    unfold under_loop
    split_ifs with hb
    · exact ih _
    · exact fun hc => hb hc.1

/-- With at least `MAX_HIST_Y - l` iterations allowed, the upward search ends
where the condition of its `while` is false. -/
theorem over_loop_exit (c : Nat → Nat) (t : Nat) (fuel l b : Nat)
    (hfuel : MAX_HIST_Y - l ≤ fuel) :
    ¬ ((over_loop c t fuel l b).1 > t ∧ (over_loop c t fuel l b).2 < MAX_HIST_Y) := by
  induction fuel generalizing l b with
  | zero =>
    unfold over_loop
    intro hc
    have := hc.2
    simp only at this
    omega
  | succ fuel ih =>
    unfold over_loop
    split_ifs with hb
    · exact ih _ _ (by omega)
    · exact hb

/-- Allowing more than `MAX_HIST_Y - l` iterations does not change the result
of the upward search. -/
theorem over_loop_fuel (c : Nat → Nat) (t : Nat) (fuel l b : Nat)
    (hfuel : MAX_HIST_Y - l ≤ fuel) :
    over_loop c t (fuel + 1) l b = over_loop c t fuel l b := by
  induction fuel generalizing l b with
  | zero =>
    have hl : ¬ l < MAX_HIST_Y := by omega
    simp [over_loop, hl]
  | succ fuel ih =>
    rw [over_loop]
    split_ifs with hb
    · rw [ih _ _ (by omega)]
      conv_rhs => rw [over_loop, if_pos hb]
    · conv_rhs => rw [over_loop, if_neg hb]

/-- The white balance block does not touch the exposure fields. -/
theorem auto_white_balance_exposure (s : isp_yuv_stats_t) (w : World) :
    (auto_white_balance s w).mt9f002.target_exposure = w.mt9f002.target_exposure ∧
    (auto_white_balance s w).mt9f002.real_exposure = w.mt9f002.real_exposure := by
  unfold auto_white_balance
  simp only
  split_ifs <;> exact ⟨rfl, rfl⟩

/-- The value written to `target_exposure` by one run of the periodic function. -/
theorem periodic_target_exposure (s : isp_yuv_stats_t) (w : World) :
    (cv_ae_awb_periodic (some s) w).mt9f002.target_exposure
      = w.mt9f002.real_exposure * bounded_adjustment s := by
  unfold cv_ae_awb_periodic
  simp only
  rw [(auto_white_balance_exposure s (auto_exposure s w)).1]
  rfl

theorem bright_pixels_lt (s : isp_yuv_stats_t) : bright_pixels s < UINT32_MOD :=
  u32_sub_lt _ _

theorem saturated_pixels_lt (s : isp_yuv_stats_t) : saturated_pixels s < UINT32_MOD :=
  u32_sub_lt _ _

/-- When the test of line 69 holds, the subtraction of line 70 does not wrap. -/
theorem saturation_adjustment_eq (s : isp_yuv_stats_t)
    (hsat : saturated_pixels s > max_saturated_pixels s) :
    saturation_adjustment s
      = 1 - ((saturated_pixels s : ℚ) - (max_saturated_pixels s : ℚ)) / (s.nb_valid_Y : ℚ) := by
  unfold saturation_adjustment
  rw [u32_sub_of_le _ _ (le_of_lt hsat) (saturated_pixels_lt s), Nat.cast_sub (le_of_lt hsat)]

/-- The saturation branch is the first one of the decision. -/
theorem adjustment_of_saturated (s : isp_yuv_stats_t)
    (hsat : saturated_pixels s > max_saturated_pixels s) :
    adjustment s
      = 1 - ((saturated_pixels s : ℚ) - (max_saturated_pixels s : ℚ)) / (s.nb_valid_Y : ℚ) := by
  unfold adjustment
  rw [if_pos (show saturated s from hsat)]
  exact saturation_adjustment_eq s hsat

/-- The gain `gain_blue` after the white balance block. -/
theorem awb_gain_blue (s : isp_yuv_stats_t) (w : World) :
    (auto_white_balance s w).mt9f002.gain_blue
      = if |avgU s| > threshold then Bound (w.mt9f002.gain_blue - avgU s) 2 75
        else if |avgV s| > threshold then Bound w.mt9f002.gain_blue 2 75
        else w.mt9f002.gain_blue := by
  by_cases hU : |avgU s| > threshold <;> by_cases hV : |avgV s| > threshold <;>
    simp [auto_white_balance, changed, hU, hV, gain, CV_AWB_MIN_GAIN, CV_AWB_MAX_GAIN]

/-- The gain `gain_red` after the white balance block. -/
theorem awb_gain_red (s : isp_yuv_stats_t) (w : World) :
    (auto_white_balance s w).mt9f002.gain_red
      = if |avgV s| > threshold then Bound (w.mt9f002.gain_red - avgV s) 2 75
        else if |avgU s| > threshold then Bound w.mt9f002.gain_red 2 75
        else w.mt9f002.gain_red := by
  by_cases hU : |avgU s| > threshold <;> by_cases hV : |avgV s| > threshold <;>
    simp [auto_white_balance, changed, hU, hV, gain, CV_AWB_MIN_GAIN, CV_AWB_MAX_GAIN]

/-- The driver calls after the white balance block. -/
theorem awb_calls (s : isp_yuv_stats_t) (w : World) :
    (auto_white_balance s w).calls
      = w.calls ++ (if |avgU s| > threshold ∨ |avgV s| > threshold
          then [DriverCall.mt9f002_set_gains (auto_white_balance s w).mt9f002] else []) := by
  by_cases hU : |avgU s| > threshold <;> by_cases hV : |avgV s| > threshold <;>
    simp [auto_white_balance, changed, hU, hV]

/-! ## The exposure step -/

/-- C1: for every histogram and every `nb_valid_Y > 0`, the periodic function
writes `target_exposure = real_exposure * a`, where `a` is the adjustment after
`Bound`, and `1/16 ≤ a ≤ 4`; no assumption is made on the branch taken. -/
theorem exposure_adjustment_in_range (s : isp_yuv_stats_t) (w : World)
    (_hN : 0 < s.nb_valid_Y) :
    (cv_ae_awb_periodic (some s) w).mt9f002.target_exposure
      = w.mt9f002.real_exposure * bounded_adjustment s ∧
    (1 / 16 : ℚ) ≤ bounded_adjustment s ∧ bounded_adjustment s ≤ 4 :=
  ⟨periodic_target_exposure s w, Bound_mem _ _ _ (by norm_num)⟩

theorem exposure_adjustment_in_range_witness :
    0 < (stats_two_bins 1000 1000 245 0 0 100).nb_valid_Y ∧
    ((cv_ae_awb_periodic (some (stats_two_bins 1000 1000 245 0 0 100)) world0).mt9f002.target_exposure
      = world0.mt9f002.real_exposure * bounded_adjustment (stats_two_bins 1000 1000 245 0 0 100) ∧
    (1 / 16 : ℚ) ≤ bounded_adjustment (stats_two_bins 1000 1000 245 0 0 100) ∧
    bounded_adjustment (stats_two_bins 1000 1000 245 0 0 100) ≤ 4) :=
  ⟨by decide, exposure_adjustment_in_range _ _ (by decide)⟩

/-- C2: saturation precedence.  For `nb_valid_Y > 0`, whenever
`saturated_pixels > max_saturated_pixels` the adjustment before `Bound` is
`1 - (saturated_pixels - max_saturated_pixels) / nb_valid_Y`, with no
assumption on `bright_pixels`. -/
theorem saturation_precedence (s : isp_yuv_stats_t) (_hN : 0 < s.nb_valid_Y)
    (hsat : saturated_pixels s > max_saturated_pixels s) :
    adjustment s
      = 1 - ((saturated_pixels s : ℚ) - (max_saturated_pixels s : ℚ)) / (s.nb_valid_Y : ℚ) :=
  adjustment_of_saturated s hsat

theorem saturation_precedence_witness :
    under_target (stats_two_bins 1000 5 245 0 0 100) ∧
    adjustment (stats_two_bins 1000 5 245 0 0 100)
      = 1 - ((saturated_pixels (stats_two_bins 1000 5 245 0 0 100) : ℚ)
          - (max_saturated_pixels (stats_two_bins 1000 5 245 0 0 100) : ℚ))
        / ((stats_two_bins 1000 5 245 0 0 100).nb_valid_Y : ℚ) :=
  ⟨by decide, saturation_precedence _ (by decide) (by decide)⟩

/-- C3: dead-band.  With `t = nb_valid_Y / 10` and `d = t / 10`, if the
statistics are not saturated and `bright_pixels` is within `d` of `t` (neither
`bright_pixels + d < t` nor `bright_pixels - d > t`, as integers), then the
adjustment is exactly `1`, also after `Bound`, and the periodic function writes
`target_exposure = real_exposure`. -/
theorem dead_band (s : isp_yuv_stats_t) (w : World)
    (hN32 : s.nb_valid_Y < 2 ^ 32)
    (hsat : saturated_pixels s ≤ max_saturated_pixels s)
    (hlo : ¬ ((bright_pixels s : ℤ) + ((target_bright_pixels s / 10 : ℕ) : ℤ)
              < (target_bright_pixels s : ℤ)))
    (hhi : ¬ ((bright_pixels s : ℤ) - ((target_bright_pixels s / 10 : ℕ) : ℤ)
              > (target_bright_pixels s : ℤ))) :
    adjustment s = 1 ∧ bounded_adjustment s = 1 ∧
    (cv_ae_awb_periodic (some s) w).mt9f002.target_exposure = w.mt9f002.real_exposure := by
  have hb := bright_pixels_lt s
  have h1 : ¬ saturated s := not_lt.mpr hsat
  have h2 : ¬ under_target s := by
    unfold under_target u32_add
    unfold target_bright_pixels at *
    rw [UINT32_MOD_eq] at *
    norm_num at hN32
    omega
  have h3 : ¬ over_target s := by
    unfold over_target u32_sub
    unfold target_bright_pixels at *
    rw [UINT32_MOD_eq] at *
    norm_num at hN32
    omega
  have ha : adjustment s = 1 := by
    unfold adjustment
    rw [if_neg h1, if_neg h2, if_neg h3]
  have hba : bounded_adjustment s = 1 := by
    unfold bounded_adjustment
    rw [ha]
    exact Bound_of_mem _ _ _ (by norm_num) (by norm_num)
  refine ⟨ha, hba, ?_⟩
  rw [periodic_target_exposure, hba, mul_one]

theorem dead_band_witness :
    adjustment (stats_two_bins 1000 105 230 0 0 100) = 1 ∧
    bounded_adjustment (stats_two_bins 1000 105 230 0 0 100) = 1 ∧
    (cv_ae_awb_periodic (some (stats_two_bins 1000 105 230 0 0 100)) world0).mt9f002.target_exposure
      = world0.mt9f002.real_exposure :=
  dead_band _ _ (by decide) (by decide) (by decide) (by decide)

/-- C9: the array `cdf` is the prefix sum of the histogram modulo `2 ^ 32`:
`cdf[i] = (h[0] + ... + h[i]) mod 2 ^ 32` for every `i < 246`; `bright_pixels`
is the sum of bins `226..245` and `saturated_pixels` the sum of bins
`241..245`, both modulo `2 ^ 32`; and when the 246 bins together hold fewer
than `2 ^ 32` pixels all three are the exact sums. -/
theorem cdf_prefix_sum (s : isp_yuv_stats_t) :
    (∀ i, i < 246 →
      cdf s.ae_histogram_Y i = (∑ j in Finset.range (i + 1), s.ae_histogram_Y j) % 2 ^ 32) ∧
    bright_pixels s = (∑ j in Finset.Ico 226 246, s.ae_histogram_Y j) % 2 ^ 32 ∧
    saturated_pixels s = (∑ j in Finset.Ico 241 246, s.ae_histogram_Y j) % 2 ^ 32 ∧
    (∑ j in Finset.range 246, s.ae_histogram_Y j < 2 ^ 32 →
      (∀ i, i < 246 →
        cdf s.ae_histogram_Y i = ∑ j in Finset.range (i + 1), s.ae_histogram_Y j) ∧
      bright_pixels s = ∑ j in Finset.Ico 226 246, s.ae_histogram_Y j ∧
      saturated_pixels s = ∑ j in Finset.Ico 241 246, s.ae_histogram_Y j) := by
  have hb : bright_pixels s = (∑ j in Finset.Ico 226 246, s.ae_histogram_Y j) % 2 ^ 32 :=
    cdf_sub s.ae_histogram_Y 225 245 (by norm_num)
  have hs : saturated_pixels s = (∑ j in Finset.Ico 241 246, s.ae_histogram_Y j) % 2 ^ 32 :=
    cdf_sub s.ae_histogram_Y 240 245 (by norm_num)
  refine ⟨fun i _ => cdf_eq_sum _ i, hb, hs, fun htot => ?_⟩
  have hsub : ∀ t : Finset ℕ, t ⊆ Finset.range 246 →
      ∑ j in t, s.ae_histogram_Y j < 2 ^ 32 := fun t ht =>
    lt_of_le_of_lt (Finset.sum_le_sum_of_subset ht) htot
  have hIco : ∀ a : ℕ, Finset.Ico a 246 ⊆ Finset.range 246 := fun a x hx =>
    Finset.mem_range.mpr (Finset.mem_Ico.mp hx).2
  refine ⟨fun i hi => ?_, ?_, ?_⟩
  · rw [cdf_eq_sum]
    exact Nat.mod_eq_of_lt (hsub _ (Finset.range_subset.mpr (by omega)))
  · rw [hb]
    exact Nat.mod_eq_of_lt (hsub _ (hIco 226))
  · rw [hs]
    exact Nat.mod_eq_of_lt (hsub _ (hIco 241))

/-- C10: under-target correction.  For every input that is not saturated and
passes the test `bright_pixels + t / 10 < t` of line 71 (`t = nb_valid_Y / 10`,
in `uint32_t` arithmetic), the adjustment before `Bound` is
`236 / (final_index + 1)`, where `final_index` is the index at which the
downward search started at `235` stops (its `while` condition is false there and
`final_index ≤ 235`), and this adjustment is at least `1`. -/
theorem under_target_adjustment (s : isp_yuv_stats_t)
    (hns : saturated_pixels s ≤ max_saturated_pixels s)
    (hu : (bright_pixels s + s.nb_valid_Y / 10 / 10) % 2 ^ 32 < s.nb_valid_Y / 10) :
    under_final_index s
      = (under_loop (cdf s.ae_histogram_Y) (s.nb_valid_Y / 10) 235 (bright_pixels s)).2 ∧
    ¬ ((under_loop (cdf s.ae_histogram_Y) (s.nb_valid_Y / 10) 235 (bright_pixels s)).1
          < s.nb_valid_Y / 10 ∧ 0 < under_final_index s) ∧
    under_final_index s ≤ 235 ∧
    adjustment s = 236 / ((under_final_index s : ℚ) + 1) ∧
    1 ≤ adjustment s := by
  have hidx : under_final_index s ≤ 235 := under_loop_index_le _ _ 235 _
  have ha : adjustment s = 236 / ((under_final_index s : ℚ) + 1) := by
    unfold adjustment
    rw [if_neg (show ¬ saturated s from not_lt.mpr hns), if_pos (show under_target s from hu)]
    unfold under_adjustment
    push_cast
    norm_num [MAX_HIST_Y]
  refine ⟨rfl, under_loop_exit _ _ 235 _, hidx, ha, ?_⟩
  rw [ha]
  have hq : (under_final_index s : ℚ) ≤ 235 := by exact_mod_cast hidx
  have hpos : (0 : ℚ) < (under_final_index s : ℚ) + 1 := by positivity
  rw [le_div_iff₀ hpos]
  linarith

theorem under_target_adjustment_witness :
    under_final_index (stats_two_bins 1000 150 200 0 0 100) = 199 ∧
    adjustment (stats_two_bins 1000 150 200 0 0 100)
      = 236 / ((under_final_index (stats_two_bins 1000 150 200 0 0 100) : ℚ) + 1) ∧
    1 ≤ adjustment (stats_two_bins 1000 150 200 0 0 100) :=
  have h := under_target_adjustment (stats_two_bins 1000 150 200 0 0 100)
    (by decide) (by decide)
  ⟨by decide, h.2.2.2.1, h.2.2.2.2⟩

/-! ## The white balance step -/

theorem MAX_HIST_Y_eq : MAX_HIST_Y = 246 := rfl

theorem u32_sub_self (a : Nat) : u32_sub a a = 0 := by
  unfold u32_sub
  rw [UINT32_MOD_eq] at *
  omega

/-- One run of the body of the upward search moves the lower end of the
window up by one bin. -/
theorem over_body (top lo hi : Nat) :
    u32_add (u32_sub (u32_sub top lo) hi) lo = u32_sub top hi := by
  unfold u32_add u32_sub
  rw [UINT32_MOD_eq] at *
  omega

/-- One run of the body of the downward search adds the bin `h (l + 1)`. -/
theorem under_body (h : Nat → Nat) (l b : Nat) :
    u32_sub (u32_add b (cdf h (l + 1))) (cdf h l) = (b + h (l + 1)) % UINT32_MOD := by
  have hc := cdf_lt h l
  rw [cdf]
  generalize cdf h l = c at hc
  generalize h (l + 1) = x
  unfold u32_add u32_sub
  rw [UINT32_MOD_eq] at *
  omega

/-- When the test of line 71 fails, `bright_pixels` is at least
`target_bright_pixels / 10`. -/
theorem le_bright_of_not_under (s : isp_yuv_stats_t) (hnu : ¬ under_target s) :
    target_bright_pixels s / 10 ≤ bright_pixels s := by
  by_contra hlt
  apply hnu
  unfold under_target u32_add
  have hmod : (bright_pixels s + target_bright_pixels s / 10) % UINT32_MOD
      ≤ bright_pixels s + target_bright_pixels s / 10 := Nat.mod_le _ _
  omega

/-- When the test of line 71 fails, the subtraction of line 81 does not wrap. -/
theorem over_sub_of_not_under (s : isp_yuv_stats_t) (hnu : ¬ under_target s) :
    u32_sub (bright_pixels s) (target_bright_pixels s / 10)
      = bright_pixels s - target_bright_pixels s / 10 :=
  u32_sub_of_le _ _ (le_bright_of_not_under s hnu) (bright_pixels_lt s)

/-- In the over-target branch `bright_pixels` exceeds the target. -/
theorem target_lt_bright_of_over (s : isp_yuv_stats_t) (hnu : ¬ under_target s)
    (ho : over_target s) : target_bright_pixels s < bright_pixels s := by
  unfold over_target at ho
  rw [over_sub_of_not_under s hnu] at ho
  omega

/-- Invariant of the upward search: the count is always
`cdf[245] - cdf[l - 1]`, the search stops at the first index where this is at
most the target, and `cdf[245] - cdf[245] = 0` stops it at `246` at the latest. -/
theorem over_loop_spec (c : Nat → Nat) (t fuel l b : Nat)
    (hl1 : 1 ≤ l) (hl : l ≤ 246) (hfuel : 246 - l ≤ fuel)
    (hb : b = u32_sub (c 245) (c (l - 1))) :
    l ≤ (over_loop c t fuel l b).2 ∧ (over_loop c t fuel l b).2 ≤ 246 ∧
    (over_loop c t fuel l b).1 = u32_sub (c 245) (c ((over_loop c t fuel l b).2 - 1)) ∧
    (over_loop c t fuel l b).1 ≤ t ∧
    ∀ m, l ≤ m → m < (over_loop c t fuel l b).2 → t < u32_sub (c 245) (c (m - 1)) := by
  induction fuel generalizing l b with
  | zero =>
    have h246 : l = 246 := by omega
    subst h246
    have h0 : b = 0 := by rw [hb]; exact u32_sub_self _
    unfold over_loop
    refine ⟨le_refl _, le_refl _, hb, ?_, ?_⟩
    · simp only [h0]; exact Nat.zero_le _
    · intro m h1 h2; simp only at h2; omega
  | succ fuel ih =>
    unfold over_loop
    by_cases hcond : b > t ∧ l < MAX_HIST_Y
    · rw [if_pos hcond]
      have hlt : l < 246 := hcond.2
      have hb2 : u32_add (u32_sub b (c l)) (c (l - 1)) = u32_sub (c 245) (c (l + 1 - 1)) := by
        rw [hb, Nat.add_sub_cancel]
        exact over_body _ _ _
      obtain ⟨i1, i2, i3, i4, i5⟩ := ih (l + 1) _ (by omega) (by omega) (by omega) hb2
      refine ⟨by omega, i2, i3, i4, ?_⟩
      intro m h1 h2
      by_cases hm : m = l
      · subst hm; rw [← hb]; exact hcond.1
      · exact i5 m (by omega) h2
    · rw [if_neg hcond]
      refine ⟨le_refl _, hl, hb, ?_, ?_⟩
      · by_cases hlt : l < MAX_HIST_Y
        · exact not_lt.mp (fun hgt => hcond ⟨hgt, hlt⟩)
        · have h246 : l = 246 := by rw [MAX_HIST_Y_eq] at hlt; omega
          subst h246
          simp only [hb, Nat.add_sub_cancel]
          rw [u32_sub_self _]
          exact Nat.zero_le _
      · intro m h1 h2; simp only at h2; omega

/-- The upward search never lowers its index. -/
theorem over_loop_index_ge (c : Nat → Nat) (t fuel l b : Nat) :
    l ≤ (over_loop c t fuel l b).2 := by
  induction fuel generalizing l b with
  | zero => exact le_refl _
  | succ fuel ih =>
    unfold over_loop
    split_ifs
    · exact le_trans (Nat.le_succ l) (ih _ _)
    · exact le_refl _

/-- The upward search moves its index up by one for each run of its body, and
its body runs with indices from the start index up to `245`. -/
theorem over_loop_iters_spec (c : Nat → Nat) (t fuel l b : Nat) :
    (over_loop c t fuel l b).2 = l + (over_loop_iters c t fuel l b).length ∧
    (over_loop_iters c t fuel l b).length ≤ fuel ∧
    ∀ i ∈ over_loop_iters c t fuel l b, l ≤ i ∧ i ≤ 245 := by
  induction fuel generalizing l b with
  | zero => simp [over_loop, over_loop_iters]
  | succ fuel ih =>
    unfold over_loop over_loop_iters
    by_cases hcond : b > t ∧ l < MAX_HIST_Y
    · rw [if_pos hcond, if_pos hcond]
      have hlt : l < 246 := hcond.2
      obtain ⟨i1, i2, i3⟩ := ih (l + 1) (u32_add (u32_sub b (c l)) (c (l - 1)))
      refine ⟨by rw [i1, List.length_cons]; omega, by rw [List.length_cons]; omega, ?_⟩
      intro i hi
      rcases List.mem_cons.mp hi with h | h
      · omega
      · have := i3 i h; omega
    · rw [if_neg hcond, if_neg hcond]
      simp

/-- The downward search moves its index down by one for each run of its body,
and its body runs with indices from the start index down to `1`. -/
theorem under_loop_iters_spec (c : Nat → Nat) (t l b : Nat) :
    (under_loop c t l b).2 + (under_loop_iters c t l b).length = l ∧
    (b < t → 0 < l → 0 < (under_loop_iters c t l b).length) ∧
    ∀ i ∈ under_loop_iters c t l b, 1 ≤ i ∧ i ≤ l := by
  induction l generalizing b with
  | zero => simp [under_loop, under_loop_iters]
  | succ l ih =>
    unfold under_loop under_loop_iters
    by_cases hcond : b < t
    · rw [if_pos hcond, if_pos hcond]
      obtain ⟨i1, _, i3⟩ := ih (u32_sub (u32_add b (c (l + 1))) (c l))
      refine ⟨by rw [List.length_cons]; omega, fun _ _ => by rw [List.length_cons]; omega, ?_⟩
      intro i hi
      rcases List.mem_cons.mp hi with h | h
      · omega
      · have := i3 i h; omega
    · rw [if_neg hcond, if_neg hcond]
      simp [hcond]

/-- The upward search as run by the over-target branch: it stops at the least
index in `[227, 246]` whose window `cdf[245] - cdf[l - 1]` is at most the
target. -/
theorem over_search_spec (s : isp_yuv_stats_t) (hnu : ¬ under_target s) (ho : over_target s) :
    227 ≤ over_final_index s ∧ over_final_index s ≤ 246 ∧
    over_final_bright s
      = u32_sub (cdf s.ae_histogram_Y 245) (cdf s.ae_histogram_Y (over_final_index s - 1)) ∧
    over_final_bright s ≤ target_bright_pixels s ∧
    ∀ m, 226 ≤ m → m < over_final_index s →
      target_bright_pixels s
        < u32_sub (cdf s.ae_histogram_Y 245) (cdf s.ae_histogram_Y (m - 1)) := by
  obtain ⟨i1, i2, i3, i4, i5⟩ := over_loop_spec (cdf s.ae_histogram_Y)
    (target_bright_pixels s) 20 226 (bright_pixels s) (by norm_num) (by norm_num)
    (by norm_num) rfl
  refine ⟨?_, i2, i3, i4, i5⟩
  have hgt := target_lt_bright_of_over s hnu ho
  have hne : over_final_index s ≠ 226 := by
    intro h226
    have h4 : over_final_bright s ≤ target_bright_pixels s := i4
    have h3 : over_final_bright s
        = u32_sub (cdf s.ae_histogram_Y 245) (cdf s.ae_histogram_Y (over_final_index s - 1)) := i3
    rw [h226] at h3
    have hb : over_final_bright s = bright_pixels s := h3
    omega
  have hge : 226 ≤ over_final_index s := i1
  omega

/-- In a run that is not saturated the upward search stops at `241` at the
latest, where the window is `saturated_pixels`. -/
theorem over_search_le (s : isp_yuv_stats_t) (hns : ¬ saturated s)
    (hnu : ¬ under_target s) (ho : over_target s) : over_final_index s ≤ 241 := by
  obtain ⟨_, _, _, _, i5⟩ := over_search_spec s hnu ho
  by_contra hgt
  have h := i5 241 (by norm_num) (by omega)
  have hsat : saturated_pixels s
      = u32_sub (cdf s.ae_histogram_Y 245) (cdf s.ae_histogram_Y (241 - 1)) := rfl
  rw [← hsat] at h
  unfold saturated at hns
  unfold target_bright_pixels at h
  unfold max_saturated_pixels at hns
  omega

/-- The adjustment of the over-target branch. -/
theorem adjustment_of_over (s : isp_yuv_stats_t) (hns : ¬ saturated s)
    (hnu : ¬ under_target s) (ho : over_target s) :
    adjustment s = (226 / (over_final_index s : ℚ)) ^ 2 := by
  unfold adjustment
  rw [if_neg hns, if_neg hnu, if_pos ho]
  unfold over_adjustment
  rw [sq]
  norm_num [MAX_HIST_Y]

/-! ## The over-target search -/

/-- C11: over-target correction.  For every input that is not saturated, not
under target and passes the test `bright_pixels - t / 10 > t` of line 81
(`t = nb_valid_Y / 10`, in `uint32_t` arithmetic), the adjustment before
`Bound` is `(226 / final_index) ^ 2`, where `final_index` is the least index
`l` in `[227, 246]` such that `cdf[245] - cdf[l - 1]`, the pixels in bins
`l..245` modulo `2 ^ 32`, is at most `t`. -/
theorem over_target_adjustment (s : isp_yuv_stats_t)
    (hns : saturated_pixels s ≤ max_saturated_pixels s)
    (hnu : ¬ (bright_pixels s + s.nb_valid_Y / 10 / 10) % 2 ^ 32 < s.nb_valid_Y / 10)
    (ho : u32_sub (bright_pixels s) (s.nb_valid_Y / 10 / 10) > s.nb_valid_Y / 10) :
    adjustment s = (226 / (over_final_index s : ℚ)) ^ 2 ∧
    227 ≤ over_final_index s ∧ over_final_index s ≤ 246 ∧
    u32_sub (cdf s.ae_histogram_Y 245) (cdf s.ae_histogram_Y (over_final_index s - 1))
      ≤ s.nb_valid_Y / 10 ∧
    (∀ l, 227 ≤ l → l < over_final_index s →
      s.nb_valid_Y / 10
        < u32_sub (cdf s.ae_histogram_Y 245) (cdf s.ae_histogram_Y (l - 1))) ∧
    (∀ l, 227 ≤ l → l ≤ 246 →
      u32_sub (cdf s.ae_histogram_Y 245) (cdf s.ae_histogram_Y (l - 1))
        = (∑ j in Finset.Ico l 246, s.ae_histogram_Y j) % 2 ^ 32) := by
  have hns2 : ¬ saturated s := not_lt.mpr hns
  have hnu2 : ¬ under_target s := hnu
  have ho2 : over_target s := ho
  obtain ⟨i1, i2, i3, i4, i5⟩ := over_search_spec s hnu2 ho2
  refine ⟨adjustment_of_over s hns2 hnu2 ho2, i1, i2, ?_, ?_, ?_⟩
  · rw [← i3]; exact i4
  · intro l h1 h2
    exact i5 l (by omega) h2
  · intro l h1 h2
    have h := cdf_sub s.ae_histogram_Y (l - 1) 245 (by omega)
    rw [show l - 1 + 1 = l by omega] at h
    exact h

theorem over_target_adjustment_witness :
    adjustment (stats_two_bins 1000 300 230 0 0 100)
      = (226 / (over_final_index (stats_two_bins 1000 300 230 0 0 100) : ℚ)) ^ 2 ∧
    over_final_index (stats_two_bins 1000 300 230 0 0 100) = 231 :=
  have h := over_target_adjustment (stats_two_bins 1000 300 230 0 0 100)
    (by decide) (by decide) (by decide)
  ⟨h.1, by decide⟩

/-- C19: the over-target search reaches its target before the array end.  For
every input that takes the over-target branch, the loop body runs at least
once, the loop stops with `bright_pixels ≤ target_bright_pixels` at an index
`final_index` in `[227, 241]`, and the adjustment `(226 / final_index) ^ 2`
lies in `[(226/241)^2, (226/227)^2]`, is strictly less than `1` and is left
unchanged by `Bound(_, 1/16, 4)`. -/
theorem over_search_reaches_target (s : isp_yuv_stats_t)
    (hns : ¬ saturated s) (hnu : ¬ under_target s) (ho : over_target s) :
    saturated_pixels s ≤ s.nb_valid_Y / 400 ∧
    1 ≤ (over_iters s).length ∧
    over_final_bright s ≤ target_bright_pixels s ∧
    227 ≤ over_final_index s ∧ over_final_index s ≤ 241 ∧
    adjustment s = (226 / (over_final_index s : ℚ)) ^ 2 ∧
    (226 / 241 : ℚ) ^ 2 ≤ adjustment s ∧ adjustment s ≤ (226 / 227 : ℚ) ^ 2 ∧
    adjustment s < 1 ∧
    bounded_adjustment s = adjustment s := by
  obtain ⟨i1, _, _, i4, _⟩ := over_search_spec s hnu ho
  have h241 := over_search_le s hns hnu ho
  have ha := adjustment_of_over s hns hnu ho
  have hiters : over_final_index s = 226 + (over_iters s).length :=
    (over_loop_iters_spec _ _ _ _ _).1
  have hlo : (227 : ℚ) ≤ (over_final_index s : ℚ) := by exact_mod_cast i1
  have hhi : (over_final_index s : ℚ) ≤ 241 := by exact_mod_cast h241
  have hpos : (0 : ℚ) < (over_final_index s : ℚ) := by linarith
  have hq1 : (226 / 241 : ℚ) ≤ 226 / (over_final_index s : ℚ) :=
    div_le_div_of_nonneg_left (by norm_num) hpos hhi
  have hq2 : 226 / (over_final_index s : ℚ) ≤ (226 / 227 : ℚ) :=
    div_le_div_of_nonneg_left (by norm_num) (by norm_num) hlo
  have hq0 : (0 : ℚ) ≤ 226 / (over_final_index s : ℚ) := by positivity
  have hb1 : (226 / 241 : ℚ) ^ 2 ≤ adjustment s := by
    rw [ha]; exact pow_le_pow_left₀ (by norm_num) hq1 2
  have hb2 : adjustment s ≤ (226 / 227 : ℚ) ^ 2 := by
    rw [ha]; exact pow_le_pow_left₀ hq0 hq2 2
  refine ⟨not_lt.mp hns, by omega, i4, i1, h241, ha, hb1, hb2, ?_, ?_⟩
  · exact lt_of_le_of_lt hb2 (by norm_num)
  · unfold bounded_adjustment
    exact Bound_of_mem _ _ _ (le_trans (by norm_num) hb1) (le_trans hb2 (by norm_num))

theorem over_search_reaches_target_witness :
    over_final_index (stats_two_bins 1000 300 230 0 0 100) ≤ 241 ∧
    bounded_adjustment (stats_two_bins 1000 300 230 0 0 100)
      = adjustment (stats_two_bins 1000 300 230 0 0 100) :=
  have h := over_search_reaches_target (stats_two_bins 1000 300 230 0 0 100)
    (by decide) (by decide) (by decide)
  ⟨h.2.2.2.2.1, h.2.2.2.2.2.2.2.2.2⟩

/-! ## Scenarios -/

/-- The statistics with all `n` pixels in bin `245` have `n` saturated pixels. -/
theorem saturated_pixels_top_bin (n u v g : Nat) (hn32 : n < 2 ^ 32) :
    saturated_pixels (stats_two_bins n n 245 u v g) = n := by
  have h : saturated_pixels (stats_two_bins n n 245 u v g)
      = (∑ j in Finset.Ico 241 246, (stats_two_bins n n 245 u v g).ae_histogram_Y j)
        % UINT32_MOD :=
    cdf_sub _ 240 245 (by norm_num)
  rw [h, Finset.sum_Ico_eq_sum_range]
  simp only [stats_two_bins, Finset.sum_range_succ, Finset.sum_range_zero]
  norm_num
  rw [UINT32_MOD_eq]
  exact Nat.mod_eq_of_lt (by norm_num at hn32; exact hn32)

/-- C12: scenario of the uniform histogram (one pixel in each of the 246 bins,
`nb_valid_Y = 246`, chroma sums `0`, `100` grey pixels).  The exposure step
takes the saturation branch (`5 > 0`) with adjustment `1 - 5/246 = 241/246`,
which `Bound` leaves unchanged; the white balance step gets
`avgU = avgV = -0.5`, adds `0.5` to both gains, applies
`Bound(_, 2, 75)` to both and calls `mt9f002_set_gains`. -/
theorem uniform_histogram_scenario (w : World) :
    stats_uniform.nb_valid_Y = 246 ∧
    (∀ i, i < 246 → stats_uniform.ae_histogram_Y i = 1) ∧
    saturated_pixels stats_uniform = 5 ∧ max_saturated_pixels stats_uniform = 0 ∧
    saturated stats_uniform ∧
    adjustment stats_uniform = 1 - 5 / 246 ∧
    bounded_adjustment stats_uniform = 241 / 246 ∧
    (cv_ae_awb_periodic (some stats_uniform) w).mt9f002.target_exposure
      = w.mt9f002.real_exposure * (241 / 246) ∧
    avgU stats_uniform = -(1 / 2) ∧ avgV stats_uniform = -(1 / 2) ∧
    (cv_ae_awb_periodic (some stats_uniform) w).mt9f002.gain_blue
      = Bound (w.mt9f002.gain_blue + 1 / 2) 2 75 ∧
    (cv_ae_awb_periodic (some stats_uniform) w).mt9f002.gain_red
      = Bound (w.mt9f002.gain_red + 1 / 2) 2 75 ∧
    (cv_ae_awb_periodic (some stats_uniform) w).calls
      = w.calls ++ [DriverCall.mt9f002_set_exposure (auto_exposure stats_uniform w).mt9f002,
          DriverCall.mt9f002_set_gains (cv_ae_awb_periodic (some stats_uniform) w).mt9f002] := by
  have h5 : saturated_pixels stats_uniform = 5 := by decide
  have h0 : max_saturated_pixels stats_uniform = 0 := by decide
  have hsat : saturated stats_uniform := by decide
  have hN : ((stats_uniform.nb_valid_Y : ℕ) : ℚ) = 246 := by
    norm_num [stats_uniform, stats_hist]
  have ha : adjustment stats_uniform = 1 - 5 / 246 := by
    rw [adjustment_of_saturated _ hsat, h5, h0, hN]
    norm_num
  have hba : bounded_adjustment stats_uniform = 241 / 246 := by
    unfold bounded_adjustment
    rw [ha, Bound_of_mem _ _ _ (by norm_num) (by norm_num)]
    norm_num
  have hU : avgU stats_uniform = -(1 / 2) := by
    norm_num [avgU, awb_avg, stats_uniform, stats_hist]
  have hV : avgV stats_uniform = -(1 / 2) := by
    norm_num [avgV, awb_avg, stats_uniform, stats_hist]
  have hUt : |avgU stats_uniform| > threshold := by
    rw [hU]; norm_num [threshold, lt_abs]
  have hVt : |avgV stats_uniform| > threshold := by
    rw [hV]; norm_num [threshold, lt_abs]
  refine ⟨rfl, fun i hi => by simp [stats_uniform, stats_hist, hi], h5, h0, hsat, ha, hba,
    ?_, hU, hV, ?_, ?_, ?_⟩
  · rw [periodic_target_exposure, hba]
  · show (auto_white_balance stats_uniform (auto_exposure stats_uniform w)).mt9f002.gain_blue = _
    rw [awb_gain_blue, if_pos hUt, hU]
    show Bound (w.mt9f002.gain_blue - -(1 / 2)) 2 75 = _
    rw [sub_neg_eq_add]
  · show (auto_white_balance stats_uniform (auto_exposure stats_uniform w)).mt9f002.gain_red = _
    rw [awb_gain_red, if_pos hVt, hV]
    show Bound (w.mt9f002.gain_red - -(1 / 2)) 2 75 = _
    rw [sub_neg_eq_add]
  · show (auto_white_balance stats_uniform (auto_exposure stats_uniform w)).calls = _
    rw [awb_calls, if_pos (Or.inl hUt)]
    show (w.calls ++ [_]) ++ [_] = _
    rw [List.append_assoc]
    rfl

/-- C13: scenario of full saturation.  For every `0 < n < 2 ^ 32`, with all `n`
pixels in bin `245` and `nb_valid_Y = n`: `saturated_pixels = n`, the
saturation branch is taken, the adjustment before `Bound` is
`floor(n / 400) / n ≤ 1/400`, the final adjustment is the lower bound `1/16`
and `target_exposure = real_exposure / 16`. -/
theorem full_saturation_scenario (n u v g : Nat) (w : World) (hn : 0 < n) (hn32 : n < 2 ^ 32) :
    saturated_pixels (stats_two_bins n n 245 u v g) = n ∧
    saturated (stats_two_bins n n 245 u v g) ∧
    adjustment (stats_two_bins n n 245 u v g) = ((n / 400 : ℕ) : ℚ) / (n : ℚ) ∧
    adjustment (stats_two_bins n n 245 u v g) ≤ 1 / 400 ∧
    bounded_adjustment (stats_two_bins n n 245 u v g) = 1 / 16 ∧
    (cv_ae_awb_periodic (some (stats_two_bins n n 245 u v g)) w).mt9f002.target_exposure
      = w.mt9f002.real_exposure / 16 := by
  have hs := saturated_pixels_top_bin n u v g hn32
  have hmax : max_saturated_pixels (stats_two_bins n n 245 u v g) = n / 400 := rfl
  have hlt : n / 400 < n := Nat.div_lt_self hn (by norm_num)
  have hsat : saturated (stats_two_bins n n 245 u v g) := by
    unfold saturated
    rw [hs, hmax]
    exact hlt
  have hnq : (0 : ℚ) < (n : ℚ) := by exact_mod_cast hn
  have hN : (((stats_two_bins n n 245 u v g).nb_valid_Y : ℕ) : ℚ) = (n : ℚ) := rfl
  have ha : adjustment (stats_two_bins n n 245 u v g) = ((n / 400 : ℕ) : ℚ) / (n : ℚ) := by
    rw [adjustment_of_saturated _ hsat, hs, hmax, hN]
    field_simp
  have hfl : ((n / 400 : ℕ) : ℚ) ≤ (n : ℚ) / 400 := by
    rw [le_div_iff₀ (by norm_num)]
    exact_mod_cast Nat.div_mul_le_self n 400
  have hle : adjustment (stats_two_bins n n 245 u v g) ≤ 1 / 400 := by
    rw [ha, div_le_iff₀ hnq]
    linarith
  have hba : bounded_adjustment (stats_two_bins n n 245 u v g) = 1 / 16 := by
    unfold bounded_adjustment Bound
    rw [if_neg (by linarith), if_pos (by linarith)]
  refine ⟨hs, hsat, ha, hle, hba, ?_⟩
  rw [periodic_target_exposure, hba]
  ring

theorem full_saturation_scenario_witness :
    bounded_adjustment (stats_two_bins 1000 1000 245 0 0 100) = 1 / 16 ∧
    (cv_ae_awb_periodic (some (stats_two_bins 1000 1000 245 0 0 100)) world0).mt9f002.target_exposure
      = world0.mt9f002.real_exposure / 16 :=
  (full_saturation_scenario 1000 0 0 100 world0 (by decide) (by decide)).2.2.2.2

/-! ## Zero grey pixels -/

/-- The checked average is `none` exactly for a zero grey pixel count. -/
theorem awb_avg_checked_eq (sum nb_grey : Nat) :
    awb_avg_checked sum nb_grey
      = if nb_grey = 0 then none else some (awb_avg sum nb_grey) := by
  unfold awb_avg_checked fdiv_checked awb_avg
  by_cases h : nb_grey = 0
  · simp [h]
  · have hq : (nb_grey : ℚ) ≠ 0 := by exact_mod_cast h
    simp [h, hq]

/-- C14 (as the code behaves): the white balance block has no guard on
`awb_nb_grey_pixels`: the divisions of lines 102-103 are evaluated with a zero
divisor exactly when `awb_nb_grey_pixels = 0`, whatever the other inputs are,
and with a non-zero divisor the block computes `auto_white_balance`. -/
theorem awb_division_unguarded (s : isp_yuv_stats_t) (w : World) :
    auto_white_balance_checked s w
      = if s.awb_nb_grey_pixels = 0 then none else some (auto_white_balance s w) := by
  unfold auto_white_balance_checked
  rw [awb_avg_checked_eq, awb_avg_checked_eq]
  by_cases h : s.awb_nb_grey_pixels = 0
  · simp [h]
  · simp only [h, if_false, Option.some_bind]
    unfold auto_white_balance changed avgU avgV
    split_ifs <;> rfl

/-- C14, counterexample: with `awb_nb_grey_pixels = 0` the division of line 102
is evaluated with a zero divisor. -/
theorem awb_division_by_zero_reached :
    (stats_two_bins 1000 105 230 12800 12800 0).awb_nb_grey_pixels = 0 ∧
    fdiv_checked ((stats_two_bins 1000 105 230 12800 12800 0).awb_sum_U : ℚ)
      ((stats_two_bins 1000 105 230 12800 12800 0).awb_nb_grey_pixels : ℚ) = none ∧
    auto_white_balance_checked (stats_two_bins 1000 105 230 12800 12800 0) world0 = none := by
  refine ⟨rfl, ?_, ?_⟩
  · simp [fdiv_checked, stats_two_bins]
  · simp [auto_white_balance_checked, awb_avg_checked, fdiv_checked, stats_two_bins]

/-! ## The under-target search -/

/-- Invariant of the downward search started at index `L` with count `b`: the
count is `b` plus the bins above the current index, modulo `2 ^ 32`; the search
passes every index at which this count is below the target and stops at the
first one where it is not, or at index `0`. -/
theorem under_loop_spec (h : Nat → Nat) (t L b : Nat) (hb : b < UINT32_MOD) :
    (under_loop (cdf h) t L b).1
      = (b + ∑ j in Finset.Ico ((under_loop (cdf h) t L b).2 + 1) (L + 1), h j) % UINT32_MOD ∧
    (∀ m, (under_loop (cdf h) t L b).2 < m → m ≤ L →
      (b + ∑ j in Finset.Ico (m + 1) (L + 1), h j) % UINT32_MOD < t) ∧
    (t ≤ (under_loop (cdf h) t L b).1 ∨ (under_loop (cdf h) t L b).2 = 0) := by
  induction L generalizing b with
  | zero =>
    unfold under_loop
    refine ⟨?_, ?_, Or.inr rfl⟩
    · simp [Nat.mod_eq_of_lt hb]
    · intro m h1 h2; simp only at h1; omega
  | succ L ih =>
    unfold under_loop
    by_cases hcond : b < t
    · rw [if_pos hcond, under_body]
      have hb2 : (b + h (L + 1)) % UINT32_MOD < UINT32_MOD :=
        Nat.mod_lt _ (by rw [UINT32_MOD_eq]; norm_num)
      obtain ⟨i1, i2, i3⟩ := ih ((b + h (L + 1)) % UINT32_MOD) hb2
      have hle := under_loop_index_le (cdf h) t L ((b + h (L + 1)) % UINT32_MOD)
      have key : ∀ a, a ≤ L + 1 →
          ((b + h (L + 1)) % UINT32_MOD + ∑ j in Finset.Ico a (L + 1), h j) % UINT32_MOD
            = (b + ∑ j in Finset.Ico a (L + 1 + 1), h j) % UINT32_MOD := by
        intro a ha
        rw [Finset.sum_Ico_succ_top ha]
        generalize ∑ j in Finset.Ico a (L + 1), h j = S
        generalize h (L + 1) = x
        rw [UINT32_MOD_eq]
        omega
      refine ⟨?_, ?_, i3⟩
      · rw [i1, key _ (by omega)]
      · intro m h1 h2
        by_cases hm : m = L + 1
        · subst hm
          simp [Nat.mod_eq_of_lt hb, hcond]
        · rw [← key _ (by omega)]
          exact i2 m h1 (by omega)
    · rw [if_neg hcond]
      refine ⟨?_, ?_, Or.inl (not_lt.mp hcond)⟩
      · simp [Nat.mod_eq_of_lt hb]
      · intro m h1 h2; simp only at h1; omega

/-- After `k ≤ 235` runs of the body of the downward search the index is
`235 - k` and the count is the initial count plus bins `236 - k, ..., 235`. -/
theorem under_body_iterate (s : isp_yuv_stats_t) (k : Nat) (hk : k ≤ 235) :
    (under_body_step (cdf s.ae_histogram_Y))^[k] (bright_pixels s, 235)
      = (under_search_sum s k, 235 - k) := by
  induction k with
  | zero =>
    simp [under_search_sum, Nat.mod_eq_of_lt (bright_pixels_lt s)]
  | succ k ih =>
    rw [Function.iterate_succ_apply', ih (by omega)]
    unfold under_body_step
    simp only
    have hl : 235 - k = (235 - k - 1) + 1 := by omega
    have hstep : u32_sub (u32_add (under_search_sum s k) (cdf s.ae_histogram_Y (235 - k)))
          (cdf s.ae_histogram_Y (235 - k - 1))
        = (under_search_sum s k + s.ae_histogram_Y (235 - k)) % UINT32_MOD := by
      have h := under_body s.ae_histogram_Y (235 - k - 1) (under_search_sum s k)
      rw [← hl] at h
      exact h
    rw [hstep]
    have hsum : ∑ j in Finset.Ico (236 - (k + 1)) 236, s.ae_histogram_Y j
        = s.ae_histogram_Y (235 - k) + ∑ j in Finset.Ico (236 - k) 236, s.ae_histogram_Y j := by
      rw [show 236 - (k + 1) = 235 - k by omega, show 236 - k = 235 - k + 1 by omega]
      exact Finset.sum_eq_sum_Ico_succ_bot (by omega) _
    refine Prod.ext ?_ (by simp only; omega)
    simp only
    unfold under_search_sum
    rw [hsum]
    generalize ∑ j in Finset.Ico (236 - k) 236, s.ae_histogram_Y j = S
    generalize s.ae_histogram_Y (235 - k) = x
    generalize bright_pixels s = b
    rw [UINT32_MOD_eq]
    omega

/-- The downward search on `s` in terms of `under_search_sum`. -/
theorem under_search_spec (s : isp_yuv_stats_t) :
    under_final_index s ≤ 235 ∧
    under_final_bright s = under_search_sum s (235 - under_final_index s) ∧
    (∀ k, k < 235 - under_final_index s → under_search_sum s k < target_bright_pixels s) ∧
    (target_bright_pixels s ≤ under_search_sum s (235 - under_final_index s)
      ∨ under_final_index s = 0) := by
  have hle : under_final_index s ≤ 235 := under_loop_index_le _ _ 235 _
  obtain ⟨i1, i2, i3⟩ := under_loop_spec s.ae_histogram_Y (target_bright_pixels s) 235
    (bright_pixels s) (bright_pixels_lt s)
  have hfb : under_final_bright s = under_search_sum s (235 - under_final_index s) := by
    unfold under_search_sum
    rw [show 236 - (235 - under_final_index s) = under_final_index s + 1 by omega]
    exact i1
  refine ⟨hle, hfb, ?_, ?_⟩
  · intro k hk
    have h := i2 (235 - k) (show under_final_index s < 235 - k by omega) (by omega)
    unfold under_search_sum
    rw [show 236 - k = 235 - k + 1 by omega]
    exact h
  · rw [← hfb]
    exact i3

/-- In the under-target branch, when the addition of line 71 does not wrap,
`bright_pixels` is below the target and the body of the search runs at least
once. -/
theorem under_search_runs (s : isp_yuv_stats_t) (hu : under_target s)
    (hnw : bright_pixels s + target_bright_pixels s / 10 < 2 ^ 32) :
    bright_pixels s < target_bright_pixels s ∧ under_final_index s ≤ 234 := by
  have hb : bright_pixels s < target_bright_pixels s := by
    unfold under_target u32_add at hu
    rw [UINT32_MOD_eq] at hu
    norm_num at hnw
    omega
  refine ⟨hb, ?_⟩
  have h1 := (under_loop_iters_spec (cdf s.ae_histogram_Y) (target_bright_pixels s) 235
    (bright_pixels s))
  have h2 := h1.2.1 hb (by norm_num)
  have h3 : under_final_index s
      + (under_loop_iters (cdf s.ae_histogram_Y) (target_bright_pixels s) 235
          (bright_pixels s)).length = 235 := h1.1
  omega

/-- C15 (as the code behaves): under-target search result.  In the
under-target branch, with `b0` the initial `bright_pixels` and
`t = nb_valid_Y / 10`: after `k ≤ 235` runs of the loop body the index is
`235 - k` and `bright_pixels` is `b0 + h[236 - k] + ... + h[235]` modulo
`2 ^ 32` (`under_search_sum s k`; the exact sum when `b0 + h[1] + ... + h[235]`
is below `2 ^ 32`); the search makes `235 - final_index` runs, which is the
least `k` in `[0, 235]` whose count is `≥ t`, or `235` (`final_index = 0`) when
there is none; `k ≥ 1` when `bright_pixels + t / 10` does not wrap; bin `0` is
never added. -/
theorem under_search_result (s : isp_yuv_stats_t) (_hns : ¬ saturated s)
    (hu : under_target s) :
    (∀ k, k ≤ 235 →
      (under_body_step (cdf s.ae_histogram_Y))^[k] (bright_pixels s, 235)
        = (under_search_sum s k, 235 - k)) ∧
    (bright_pixels s + ∑ j in Finset.Ico 1 236, s.ae_histogram_Y j < 2 ^ 32 →
      ∀ k, k ≤ 235 → under_search_sum s k
        = bright_pixels s + ∑ j in Finset.Ico (236 - k) 236, s.ae_histogram_Y j) ∧
    under_final_index s ≤ 235 ∧
    under_final_bright s = under_search_sum s (235 - under_final_index s) ∧
    (∀ k, k < 235 - under_final_index s → under_search_sum s k < s.nb_valid_Y / 10) ∧
    (s.nb_valid_Y / 10 ≤ under_search_sum s (235 - under_final_index s)
      ∨ under_final_index s = 0) ∧
    (bright_pixels s + s.nb_valid_Y / 10 / 10 < 2 ^ 32 → 1 ≤ 235 - under_final_index s) := by
  obtain ⟨i1, i2, i3, i4⟩ := under_search_spec s
  refine ⟨fun k hk => under_body_iterate s k hk, ?_, i1, i2, i3, i4, ?_⟩
  · intro htot k hk
    unfold under_search_sum
    rw [UINT32_MOD_eq]
    apply Nat.mod_eq_of_lt
    have hsub : ∑ j in Finset.Ico (236 - k) 236, s.ae_histogram_Y j
        ≤ ∑ j in Finset.Ico 1 236, s.ae_histogram_Y j :=
      Finset.sum_le_sum_of_subset (Finset.Ico_subset_Ico (by omega) (le_refl _))
    norm_num at htot
    omega
  · intro hnw
    have h := (under_search_runs s hu hnw).2
    omega

theorem under_search_result_witness :
    under_final_index (stats_two_bins 1000 150 200 0 0 100) = 199 ∧
    under_final_bright (stats_two_bins 1000 150 200 0 0 100)
      = under_search_sum (stats_two_bins 1000 150 200 0 0 100)
          (235 - under_final_index (stats_two_bins 1000 150 200 0 0 100)) ∧
    1 ≤ 235 - under_final_index (stats_two_bins 1000 150 200 0 0 100) :=
  have h := under_search_result (stats_two_bins 1000 150 200 0 0 100) (by decide) (by decide)
  ⟨by decide, h.2.2.2.1, h.2.2.2.2.2.2 (by decide)⟩

/-- C15, counterexample.  On `stats_wrap_entry` (not saturated, under-target
test passed because `bright_pixels + t / 10 = 2 ^ 32` wraps to `0`) the search
makes no run at all: the final index is `235`, not `235 - k` for a `k` in
`[1, 235]`.  On `stats_wrap_search` the exact sum after `11` runs is
`2 ^ 32 ≥ t`, but the `uint32_t` count is `0` and the search goes on to index
`0`. -/
theorem under_search_result_counterexample :
    (¬ saturated stats_wrap_entry ∧ under_target stats_wrap_entry ∧
      target_bright_pixels stats_wrap_entry ≤ bright_pixels stats_wrap_entry ∧
      under_final_index stats_wrap_entry = 235 ∧
      ¬ ∃ k, 1 ≤ k ∧ k ≤ 235 ∧ under_final_index stats_wrap_entry = 235 - k) ∧
    (¬ saturated stats_wrap_search ∧ under_target stats_wrap_search ∧
      target_bright_pixels stats_wrap_search = 429496729 ∧
      bright_pixels stats_wrap_search
        + ∑ j in Finset.Ico (236 - 11) 236, stats_wrap_search.ae_histogram_Y j = 4294967296 ∧
      under_search_sum stats_wrap_search 11 = 0 ∧
      under_final_index stats_wrap_search = 0) := by
  have h235 : under_final_index stats_wrap_entry = 235 := by decide
  have hb : bright_pixels stats_wrap_search = 1 := by decide
  have hsum : ∑ j in Finset.Ico (236 - 11) 236, stats_wrap_search.ae_histogram_Y j
      = 4294967295 := by
    rw [Finset.sum_Ico_eq_sum_range]
    simp [Finset.sum_range_succ, stats_wrap_search, stats_hist]
  refine ⟨⟨by decide, by decide, by decide, h235, ?_⟩,
    ⟨by decide, by decide, by decide, ?_, ?_, by decide⟩⟩
  · rintro ⟨k, h1, h2, h3⟩
    rw [h235] at h3
    omega
  · rw [hb, hsum]
  · unfold under_search_sum
    rw [hb, hsum, UINT32_MOD_eq]

/-! ## Array bounds and termination of the two searches -/

/-- C16 (as the code behaves): the two search loops stay inside `cdf` and
terminate.  For every histogram: the body of the downward loop runs with
`1 ≤ l ≤ 235` and the body of the upward loop with `226 ≤ l ≤ 245`, so the reads
`cdf[l]` and `cdf[l - 1]` have indices in `[0, 246)`; the downward loop makes at
most `235` runs and ends, with its condition false, at `l` in `[0, 235]`, and at
`l ≤ 234` when `bright_pixels` is below the target on entry, which the
under-target test guarantees when `bright_pixels + t / 10` does not wrap; the
upward loop makes at most `20` runs and ends, with its condition false, at `l`
in `[226, 246]`, and in `[227, 246]` in the over-target branch; neither divisor
`l + 1` nor `l` is zero. -/
theorem search_loops_in_bounds (s : isp_yuv_stats_t) :
    (∀ l ∈ under_iters s, 1 ≤ l ∧ l ≤ 235 ∧ l < MAX_HIST_Y ∧ l - 1 < MAX_HIST_Y) ∧
    (under_iters s).length ≤ 235 ∧
    under_final_index s + (under_iters s).length = 235 ∧
    under_final_index s ≤ 235 ∧
    ¬ (under_final_bright s < target_bright_pixels s ∧ 0 < under_final_index s) ∧
    (bright_pixels s < target_bright_pixels s → under_final_index s ≤ 234) ∧
    (under_target s → bright_pixels s + target_bright_pixels s / 10 < 2 ^ 32 →
      under_final_index s ≤ 234) ∧
    (∀ l ∈ over_iters s, 226 ≤ l ∧ l ≤ 245 ∧ l < MAX_HIST_Y ∧ l - 1 < MAX_HIST_Y) ∧
    (over_iters s).length ≤ 20 ∧
    over_final_index s = 226 + (over_iters s).length ∧
    226 ≤ over_final_index s ∧ over_final_index s ≤ 246 ∧
    ¬ (over_final_bright s > target_bright_pixels s ∧ over_final_index s < MAX_HIST_Y) ∧
    (¬ under_target s → over_target s → 227 ≤ over_final_index s) ∧
    under_final_index s + 1 ≠ 0 ∧ over_final_index s ≠ 0 := by
  obtain ⟨u1, u2, u3⟩ := under_loop_iters_spec (cdf s.ae_histogram_Y)
    (target_bright_pixels s) 235 (bright_pixels s)
  obtain ⟨o1, o2, o3⟩ := over_loop_iters_spec (cdf s.ae_histogram_Y)
    (target_bright_pixels s) 20 226 (bright_pixels s)
  have hu1 : under_final_index s + (under_iters s).length = 235 := u1
  have ho1 : over_final_index s = 226 + (over_iters s).length := o1
  have ho2 : (over_iters s).length ≤ 20 := o2
  have hu2 : bright_pixels s < target_bright_pixels s → 0 < (under_iters s).length :=
    fun hb => u2 hb (by norm_num)
  refine ⟨?_, by omega, hu1, by omega, under_loop_exit _ _ 235 _, ?_, ?_, ?_, ho2, ho1,
    by omega, by omega, over_loop_exit _ _ 20 226 _ (by norm_num [MAX_HIST_Y]), ?_,
    Nat.succ_ne_zero _, by omega⟩
  · intro l hl
    have h := u3 l hl
    rw [MAX_HIST_Y_eq]
    omega
  · intro hb
    have h := hu2 hb
    omega
  · intro hu hnw
    exact (under_search_runs s hu hnw).2
  · intro l hl
    have h := o3 l hl
    rw [MAX_HIST_Y_eq]
    omega
  · intro hnu ho
    exact (over_search_spec s hnu ho).1

theorem search_loops_in_bounds_witness :
    under_final_index (stats_two_bins 1000 150 200 0 0 100) ≤ 234 ∧
    over_final_index (stats_two_bins 1000 300 230 0 0 100) ≠ 0 :=
  ⟨(search_loops_in_bounds (stats_two_bins 1000 150 200 0 0 100)).2.2.2.2.2.1 (by decide),
   (search_loops_in_bounds (stats_two_bins 1000 300 230 0 0 100)).2.2.2.2.2.2.2.2.2.2.2.2.2.2.2⟩

/-- C16, counterexample.  On `stats_wrap_entry` the under-target branch is
taken (`bright_pixels + t / 10 = 2 ^ 32` wraps to `0`), the body of the downward
loop never runs because `bright_pixels ≥ t`, and the loop ends with `l = 235`,
outside `[0, 234]`. -/
theorem search_loops_counterexample :
    ¬ saturated stats_wrap_entry ∧ under_target stats_wrap_entry ∧
    bright_pixels stats_wrap_entry + target_bright_pixels stats_wrap_entry / 10 = 2 ^ 32 ∧
    adjustment stats_wrap_entry = under_adjustment stats_wrap_entry ∧
    under_iters stats_wrap_entry = [] ∧
    ¬ under_final_index stats_wrap_entry ≤ 234 := by
  have hns : ¬ saturated stats_wrap_entry := by decide
  have hu : under_target stats_wrap_entry := by decide
  refine ⟨hns, hu, by decide, ?_, by decide, by decide⟩
  unfold adjustment
  rw [if_neg hns, if_pos hu]

/-! ## Independence of the two blocks -/

theorem cdf_congr (h1 h2 : Nat → Nat) (n : Nat) (hh : ∀ i, i ≤ n → h1 i = h2 i) :
    cdf h1 n = cdf h2 n := by
  induction n with
  | zero => unfold cdf; rw [hh 0 (le_refl _)]
  | succ n ih =>
    unfold cdf
    rw [ih (fun i hi => hh i (Nat.le_succ_of_le hi)), hh (n + 1) (le_refl _)]

theorem under_loop_congr (c1 c2 : Nat → Nat) (t l b : Nat) (hc : ∀ i, i ≤ l → c1 i = c2 i) :
    under_loop c1 t l b = under_loop c2 t l b := by
  induction l generalizing b with
  | zero => rfl
  | succ l ih =>
    unfold under_loop
    rw [hc (l + 1) (le_refl _), hc l (Nat.le_succ l), ih _ (fun i hi => hc i (Nat.le_succ_of_le hi))]

theorem over_loop_congr (c1 c2 : Nat → Nat) (t fuel l b : Nat)
    (hc : ∀ i, i < 246 → c1 i = c2 i) :
    over_loop c1 t fuel l b = over_loop c2 t fuel l b := by
  induction fuel generalizing l b with
  | zero => rfl
  | succ fuel ih =>
    unfold over_loop
    by_cases hcond : b > t ∧ l < MAX_HIST_Y
    · have hl : l < 246 := hcond.2
      rw [if_pos hcond, if_pos hcond, hc l hl, hc (l - 1) (by omega), ih]
    · rw [if_neg hcond, if_neg hcond]

/-- The adjustment depends only on the 246 bins read and on `nb_valid_Y`. -/
theorem adjustment_congr (s1 s2 : isp_yuv_stats_t)
    (hh : ∀ i, i < 246 → s1.ae_histogram_Y i = s2.ae_histogram_Y i)
    (hN : s1.nb_valid_Y = s2.nb_valid_Y) : adjustment s1 = adjustment s2 := by
  have hc : ∀ i, i < 246 → cdf s1.ae_histogram_Y i = cdf s2.ae_histogram_Y i :=
    fun i hi => cdf_congr _ _ i (fun j hj => hh j (by omega))
  have hb : bright_pixels s1 = bright_pixels s2 := by
    unfold bright_pixels
    rw [hc _ (by norm_num [MAX_HIST_Y]), hc _ (by norm_num [MAX_HIST_Y])]
  have hs : saturated_pixels s1 = saturated_pixels s2 := by
    unfold saturated_pixels
    rw [hc _ (by norm_num [MAX_HIST_Y]), hc _ (by norm_num [MAX_HIST_Y])]
  have ht : target_bright_pixels s1 = target_bright_pixels s2 := by
    unfold target_bright_pixels; rw [hN]
  have hm : max_saturated_pixels s1 = max_saturated_pixels s2 := by
    unfold max_saturated_pixels; rw [hN]
  have hui : under_final_index s1 = under_final_index s2 := by
    unfold under_final_index
    rw [hb, ht, under_loop_congr _ _ _ _ _ (fun i hi => hc i (by
      have : MAX_HIST_Y - 11 = 235 := rfl
      omega))]
  have hoi : over_final_index s1 = over_final_index s2 := by
    unfold over_final_index
    rw [hb, ht, over_loop_congr _ _ _ _ _ _ hc]
  have hsat : saturated s1 ↔ saturated s2 := by unfold saturated; rw [hs, hm]
  have hund : under_target s1 ↔ under_target s2 := by unfold under_target; rw [hb, ht]
  have hov : over_target s1 ↔ over_target s2 := by unfold over_target; rw [hb, ht]
  unfold adjustment
  by_cases h1 : saturated s1
  · rw [if_pos h1, if_pos (hsat.mp h1)]
    unfold saturation_adjustment
    rw [hs, hm, hN]
  · rw [if_neg h1, if_neg (fun h => h1 (hsat.mpr h))]
    by_cases h2 : under_target s1
    · rw [if_pos h2, if_pos (hund.mp h2)]
      unfold under_adjustment
      rw [hui]
    · rw [if_neg h2, if_neg (fun h => h2 (hund.mpr h))]
      by_cases h3 : over_target s1
      · rw [if_pos h3, if_pos (hov.mp h3)]
        unfold over_adjustment
        rw [hoi]
      · rw [if_neg h3, if_neg (fun h => h3 (hov.mpr h))]

/-- The driver calls added by one run: `mt9f002_set_exposure`, then
`mt9f002_set_gains` when `changed` is set. -/
theorem new_calls_eq (s : isp_yuv_stats_t) (w : World) :
    new_calls s w
      = DriverCall.mt9f002_set_exposure (auto_exposure s w).mt9f002 ::
        (if |avgU s| > threshold ∨ |avgV s| > threshold
          then [DriverCall.mt9f002_set_gains (cv_ae_awb_periodic (some s) w).mt9f002]
          else []) := by
  have h : (cv_ae_awb_periodic (some s) w).calls
      = w.calls ++ (DriverCall.mt9f002_set_exposure (auto_exposure s w).mt9f002 ::
        (if |avgU s| > threshold ∨ |avgV s| > threshold
          then [DriverCall.mt9f002_set_gains (cv_ae_awb_periodic (some s) w).mt9f002]
          else [])) := by
    show (auto_white_balance s (auto_exposure s w)).calls = _
    rw [awb_calls]
    show (w.calls ++ [_]) ++ _ = _
    rw [List.append_assoc]
    rfl
  unfold new_calls
  rw [h, List.drop_left]

/-- Gains are committed exactly when `changed` is set. -/
theorem gains_committed_iff (s : isp_yuv_stats_t) (w : World) :
    gains_committed s w ↔ (|avgU s| > threshold ∨ |avgV s| > threshold) := by
  unfold gains_committed
  rw [new_calls_eq]
  by_cases h : |avgU s| > threshold ∨ |avgV s| > threshold
  · rw [if_pos h]
    exact ⟨fun _ => h, fun _ => ⟨(cv_ae_awb_periodic (some s) w).mt9f002, by simp⟩⟩
  · rw [if_neg h]
    constructor
    · rintro ⟨m, hm⟩
      simp at hm
    · intro h2
      exact absurd h2 h

/-- C17: independence of the two blocks.  Two runs that agree on
`real_exposure`, on the 246 histogram bins and on `nb_valid_Y` write the same
`target_exposure`, whatever the chroma sums, the grey count and the gains are,
and the exposure block leaves both gains unchanged; two runs that agree on the
chroma sums, the grey count and the prior gains end with the same gains and the
same commit decision, whatever the histogram and the exposure are, and the
white balance block leaves `target_exposure` unchanged. -/
theorem sub_algorithms_independent (s1 s2 : isp_yuv_stats_t) (w1 w2 : World) :
    ((∀ i, i < 246 → s1.ae_histogram_Y i = s2.ae_histogram_Y i) →
      s1.nb_valid_Y = s2.nb_valid_Y →
      w1.mt9f002.real_exposure = w2.mt9f002.real_exposure →
      (cv_ae_awb_periodic (some s1) w1).mt9f002.target_exposure
        = (cv_ae_awb_periodic (some s2) w2).mt9f002.target_exposure) ∧
    ((auto_exposure s1 w1).mt9f002.gain_red = w1.mt9f002.gain_red ∧
      (auto_exposure s1 w1).mt9f002.gain_blue = w1.mt9f002.gain_blue) ∧
    (s1.awb_sum_U = s2.awb_sum_U → s1.awb_sum_V = s2.awb_sum_V →
      s1.awb_nb_grey_pixels = s2.awb_nb_grey_pixels →
      w1.mt9f002.gain_red = w2.mt9f002.gain_red →
      w1.mt9f002.gain_blue = w2.mt9f002.gain_blue →
      (cv_ae_awb_periodic (some s1) w1).mt9f002.gain_red
        = (cv_ae_awb_periodic (some s2) w2).mt9f002.gain_red ∧
      (cv_ae_awb_periodic (some s1) w1).mt9f002.gain_blue
        = (cv_ae_awb_periodic (some s2) w2).mt9f002.gain_blue ∧
      (gains_committed s1 w1 ↔ gains_committed s2 w2)) ∧
    (auto_white_balance s1 w1).mt9f002.target_exposure = w1.mt9f002.target_exposure := by
  refine ⟨?_, ⟨rfl, rfl⟩, ?_, (auto_white_balance_exposure s1 w1).1⟩
  · intro hh hN hr
    rw [periodic_target_exposure, periodic_target_exposure, hr]
    unfold bounded_adjustment
    rw [adjustment_congr s1 s2 hh hN]
  · intro hU hV hg hred hblue
    have haU : avgU s1 = avgU s2 := by unfold avgU; rw [hU, hg]
    have haV : avgV s1 = avgV s2 := by unfold avgV; rw [hV, hg]
    refine ⟨?_, ?_, ?_⟩
    · show (auto_white_balance s1 (auto_exposure s1 w1)).mt9f002.gain_red
        = (auto_white_balance s2 (auto_exposure s2 w2)).mt9f002.gain_red
      rw [awb_gain_red, awb_gain_red, haU, haV]
      show (if |avgV s2| > threshold then Bound (w1.mt9f002.gain_red - avgV s2) 2 75
        else if |avgU s2| > threshold then Bound w1.mt9f002.gain_red 2 75
        else w1.mt9f002.gain_red) = _
      rw [hred]
      rfl
    · show (auto_white_balance s1 (auto_exposure s1 w1)).mt9f002.gain_blue
        = (auto_white_balance s2 (auto_exposure s2 w2)).mt9f002.gain_blue
      rw [awb_gain_blue, awb_gain_blue, haU, haV]
      show (if |avgU s2| > threshold then Bound (w1.mt9f002.gain_blue - avgU s2) 2 75
        else if |avgV s2| > threshold then Bound w1.mt9f002.gain_blue 2 75
        else w1.mt9f002.gain_blue) = _
      rw [hblue]
      rfl
    · rw [gains_committed_iff, gains_committed_iff, haU, haV]

theorem sub_algorithms_independent_witness :
    (cv_ae_awb_periodic (some (stats_two_bins 1000 300 230 0 0 100)) world0).mt9f002.target_exposure
      = (cv_ae_awb_periodic (some (stats_two_bins 1000 300 230 12800 12825 7))
          { world0 with mt9f002 := { world0.mt9f002 with gain_red := 80, gain_blue := 1 } }
        ).mt9f002.target_exposure ∧
    (cv_ae_awb_periodic (some (stats_two_bins 1000 300 230 0 0 100)) world0).mt9f002.gain_red
      = (cv_ae_awb_periodic (some (stats_two_bins 1000 5 245 0 0 100))
          { world0 with mt9f002 := { world0.mt9f002 with real_exposure := 3 } }
        ).mt9f002.gain_red :=
  ⟨(sub_algorithms_independent (stats_two_bins 1000 300 230 0 0 100)
      (stats_two_bins 1000 300 230 12800 12825 7) world0
      { world0 with mt9f002 := { world0.mt9f002 with gain_red := 80, gain_blue := 1 } }).1
      (fun _ _ => rfl) rfl rfl,
   ((sub_algorithms_independent (stats_two_bins 1000 300 230 0 0 100)
      (stats_two_bins 1000 5 245 0 0 100) world0
      { world0 with mt9f002 := { world0.mt9f002 with real_exposure := 3 } }).2.2.1
      rfl rfl rfl rfl rfl).1⟩

/-! ## Arithmetic safety of the exposure step -/

/-- C18: the `uint32_t` subtraction `bright_pixels - target_bright_pixels / 10`
of line 81 never wraps when it is reached.  For every input, when the
saturation test and the under-target test are both false,
`bright_pixels ≥ target_bright_pixels / 10` and the `uint32_t` difference is
the integer difference; equivalently an input that is not saturated and has
`bright_pixels < target_bright_pixels / 10` passes the under-target test and
gets the adjustment of the under-target branch. -/
theorem over_test_no_wrap (s : isp_yuv_stats_t) (hns : ¬ saturated s) :
    (¬ under_target s →
      target_bright_pixels s / 10 ≤ bright_pixels s ∧
      ((u32_sub (bright_pixels s) (target_bright_pixels s / 10) : ℕ) : ℤ)
        = (bright_pixels s : ℤ) - ((target_bright_pixels s / 10 : ℕ) : ℤ)) ∧
    (bright_pixels s < target_bright_pixels s / 10 →
      under_target s ∧ adjustment s = under_adjustment s) := by
  constructor
  · intro hnu
    have hle := le_bright_of_not_under s hnu
    refine ⟨hle, ?_⟩
    rw [over_sub_of_not_under s hnu]
    omega
  · intro hlt
    have hu : under_target s := by
      by_contra hnu
      have := le_bright_of_not_under s hnu
      omega
    refine ⟨hu, ?_⟩
    unfold adjustment
    rw [if_neg hns, if_pos hu]

theorem over_test_no_wrap_witness :
    (target_bright_pixels (stats_two_bins 1000 300 230 0 0 100) / 10
        ≤ bright_pixels (stats_two_bins 1000 300 230 0 0 100) ∧
      ((u32_sub (bright_pixels (stats_two_bins 1000 300 230 0 0 100))
          (target_bright_pixels (stats_two_bins 1000 300 230 0 0 100) / 10) : ℕ) : ℤ)
        = (bright_pixels (stats_two_bins 1000 300 230 0 0 100) : ℤ)
          - ((target_bright_pixels (stats_two_bins 1000 300 230 0 0 100) / 10 : ℕ) : ℤ)) ∧
    (under_target (stats_two_bins 1000 5 230 0 0 100) ∧
      adjustment (stats_two_bins 1000 5 230 0 0 100)
        = under_adjustment (stats_two_bins 1000 5 230 0 0 100)) :=
  ⟨(over_test_no_wrap (stats_two_bins 1000 300 230 0 0 100) (by decide)).1 (by decide),
   (over_test_no_wrap (stats_two_bins 1000 5 230 0 0 100) (by decide)).2 (by decide)⟩

/-- Under the data invariant no window holds more pixels than `nb_valid_Y`. -/
theorem window_le_valid (s : isp_yuv_stats_t)
    (hinv : ∑ j in Finset.range 246, s.ae_histogram_Y j ≤ s.nb_valid_Y) :
    bright_pixels s ≤ s.nb_valid_Y ∧ saturated_pixels s ≤ s.nb_valid_Y := by
  have hb : bright_pixels s = (∑ j in Finset.Ico 226 246, s.ae_histogram_Y j) % UINT32_MOD :=
    cdf_sub s.ae_histogram_Y 225 245 (by norm_num)
  have hs : saturated_pixels s = (∑ j in Finset.Ico 241 246, s.ae_histogram_Y j) % UINT32_MOD :=
    cdf_sub s.ae_histogram_Y 240 245 (by norm_num)
  have hIco : ∀ a : ℕ, ∑ j in Finset.Ico a 246, s.ae_histogram_Y j
      ≤ ∑ j in Finset.range 246, s.ae_histogram_Y j := fun a =>
    Finset.sum_le_sum_of_subset (fun x hx => Finset.mem_range.mpr (Finset.mem_Ico.mp hx).2)
  constructor
  · rw [hb]
    exact le_trans (Nat.mod_le _ _) (le_trans (hIco 226) hinv)
  · rw [hs]
    exact le_trans (Nat.mod_le _ _) (le_trans (hIco 241) hinv)

/-- C20: the exposure step never divides by a zero pixel count on well-formed
statistics.  For every input with `h[0] + ... + h[245] ≤ nb_valid_Y` (the sum
taken exactly): when the saturation branch is taken `nb_valid_Y ≥ 1`; with
`nb_valid_Y = 0` no branch is taken and the adjustment is `1`; and no division
of the exposure step has a zero divisor. -/
theorem exposure_division_safe (s : isp_yuv_stats_t)
    (hinv : ∑ j in Finset.range 246, s.ae_histogram_Y j ≤ s.nb_valid_Y) :
    (saturated s → 1 ≤ s.nb_valid_Y) ∧
    (s.nb_valid_Y = 0 →
      ¬ saturated s ∧ ¬ under_target s ∧ ¬ over_target s ∧ adjustment s = 1) ∧
    adjustment_checked s = some (adjustment s) := by
  obtain ⟨hb, hs⟩ := window_le_valid s hinv
  have h1 : saturated s → 1 ≤ s.nb_valid_Y := by
    intro hsat
    unfold saturated max_saturated_pixels at hsat
    omega
  have h2 : s.nb_valid_Y = 0 →
      ¬ saturated s ∧ ¬ under_target s ∧ ¬ over_target s ∧ adjustment s = 1 := by
    intro h0
    have hns : ¬ saturated s := fun hsat => by have := h1 hsat; omega
    have hb0 : bright_pixels s = 0 := by omega
    have ht0 : target_bright_pixels s = 0 := by unfold target_bright_pixels; rw [h0]
    have hnu : ¬ under_target s := by
      unfold under_target
      rw [ht0]
      exact Nat.not_lt_zero _
    have hno : ¬ over_target s := by
      unfold over_target
      rw [hb0, ht0]
      simp [u32_sub_self]
    refine ⟨hns, hnu, hno, ?_⟩
    unfold adjustment
    rw [if_neg hns, if_neg hnu, if_neg hno]
  refine ⟨h1, h2, ?_⟩
  unfold adjustment_checked adjustment fdiv_checked
  by_cases hsat : saturated s
  · have hN : (s.nb_valid_Y : ℚ) ≠ 0 := by
      have := h1 hsat
      exact_mod_cast (by omega : s.nb_valid_Y ≠ 0)
    rw [if_pos hsat, if_pos hsat, if_neg hN]
    rfl
  · rw [if_neg hsat, if_neg hsat]
    by_cases hu : under_target s
    · have hd : ((under_final_index s + 1 : ℕ) : ℚ) ≠ 0 :=
        Nat.cast_ne_zero.mpr (Nat.succ_ne_zero _)
      rw [if_pos hu, if_pos hu, if_neg hd]
      rfl
    · rw [if_neg hu, if_neg hu]
      by_cases ho : over_target s
      · have hge : 226 ≤ over_final_index s := over_loop_index_ge _ _ _ _ _
        have hd : (over_final_index s : ℚ) ≠ 0 := by
          exact_mod_cast (by omega : over_final_index s ≠ 0)
        rw [if_pos ho, if_pos ho, if_neg hd]
        rfl
      · rw [if_neg ho, if_neg ho]

theorem exposure_division_safe_witness :
    (¬ saturated (stats_two_bins 0 0 245 0 0 100) ∧
      ¬ under_target (stats_two_bins 0 0 245 0 0 100) ∧
      ¬ over_target (stats_two_bins 0 0 245 0 0 100) ∧
      adjustment (stats_two_bins 0 0 245 0 0 100) = 1) ∧
    adjustment_checked (stats_two_bins 1000 5 245 0 0 100)
      = some (adjustment (stats_two_bins 1000 5 245 0 0 100)) :=
  ⟨(exposure_division_safe (stats_two_bins 0 0 245 0 0 100)
      (by rw [Finset.sum_eq_zero (fun i _ => by simp [stats_two_bins])]; exact Nat.zero_le _)).2.1
      rfl,
   (exposure_division_safe (stats_two_bins 1000 5 245 0 0 100)
      (by
        rw [Finset.sum_range_succ, Finset.sum_range_succ',
          Finset.sum_eq_zero (fun i hi => by
            have := Finset.mem_range.mp hi
            simp only [stats_two_bins]
            rw [if_neg (by omega), if_neg (by omega)])]
        simp [stats_two_bins])).2.2⟩

/-! ## Lemmas on binary rounding -/

/-- The rounded integer is within `1/2` of the argument, and even on a tie. -/
theorem round_half_even_spec (q : ℚ) :
    |q - round_half_even q| ≤ 1 / 2 ∧
    (|q - round_half_even q| = 1 / 2 → round_half_even q % 2 = 0) := by
  have h1 := Int.floor_le q
  have h2 := Int.lt_floor_add_one q
  unfold round_half_even
  split_ifs with ha hb hc
  · have habs : |q - (⌊q⌋ : ℚ)| = q - ⌊q⌋ := abs_of_nonneg (by linarith)
    rw [habs]
    exact ⟨by linarith, fun h => by linarith⟩
  · have habs : |q - ((⌊q⌋ + 1 : ℤ) : ℚ)| = (⌊q⌋ : ℚ) + 1 - q := by
      push_cast
      rw [abs_sub_comm]
      exact abs_of_nonneg (by linarith)
    rw [habs]
    exact ⟨by linarith, fun h => by linarith⟩
  · have habs : |q - (⌊q⌋ : ℚ)| = q - ⌊q⌋ := abs_of_nonneg (by linarith)
    rw [habs]
    exact ⟨by linarith, fun _ => hc⟩
  · have habs : |q - ((⌊q⌋ + 1 : ℤ) : ℚ)| = (⌊q⌋ : ℚ) + 1 - q := by
      push_cast
      rw [abs_sub_comm]
      exact abs_of_nonneg (by linarith)
    rw [habs]
    exact ⟨by linarith, fun _ => by omega⟩

/-- The nearest integer, ties to even, is unique. -/
theorem round_half_even_unique (q : ℚ) (m : ℤ)
    (h : |q - m| < 1 / 2 ∨ (|q - m| = 1 / 2 ∧ m % 2 = 0)) : round_half_even q = m := by
  obtain ⟨s1, s2⟩ := round_half_even_spec q
  generalize round_half_even q = r at s1 s2
  have hm : |q - m| ≤ 1 / 2 := by
    rcases h with h | h
    · exact le_of_lt h
    · exact le_of_eq h.1
  have a1 := abs_le.mp s1
  have a2 := abs_le.mp hm
  by_contra hne
  rcases lt_or_gt_of_ne hne with hlt | hgt
  · -- r < m
    have hr : (r : ℚ) + 1 ≤ m := by exact_mod_cast hlt
    have e1 : q - r = 1 / 2 := by linarith [a1.2, a2.1]
    have e2 : q - m = -(1 / 2) := by linarith [a1.2, a2.1]
    have hmr : (m : ℚ) = r + 1 := by linarith
    have hmr2 : m = r + 1 := by exact_mod_cast hmr
    have hre : r % 2 = 0 := s2 (by rw [e1]; norm_num)
    rcases h with h | h
    · have hh := abs_lt.mp h
      linarith [hh.1, hh.2]
    · omega
  · have hr : (m : ℚ) + 1 ≤ r := by exact_mod_cast hgt
    have e1 : q - r = -(1 / 2) := by linarith [a1.1, a2.2]
    have e2 : q - m = 1 / 2 := by linarith [a1.1, a2.2]
    have hmr : (r : ℚ) = m + 1 := by linarith
    have hmr2 : r = m + 1 := by exact_mod_cast hmr
    have hre : r % 2 = 0 := s2 (by rw [e1]; norm_num)
    rcases h with h | h
    · have hh := abs_lt.mp h
      linarith [hh.1, hh.2]
    · omega

theorem round_half_even_int (m : ℤ) : round_half_even (m : ℚ) = m :=
  round_half_even_unique _ m (Or.inl (by simp))

theorem round_half_even_neg (q : ℚ) : round_half_even (-q) = -round_half_even q := by
  obtain ⟨s1, s2⟩ := round_half_even_spec q
  apply round_half_even_unique
  have habs : |(-q) - ((-round_half_even q : ℤ) : ℚ)| = |q - round_half_even q| := by
    push_cast
    rw [← abs_neg]
    congr 1
    ring
  rw [habs]
  rcases lt_or_eq_of_le s1 with h | h
  · exact Or.inl h
  · exact Or.inr ⟨h, by have := s2 h; omega⟩

theorem round_half_even_mono (x y : ℚ) (hxy : x ≤ y) :
    round_half_even x ≤ round_half_even y := by
  obtain ⟨x1, x2⟩ := round_half_even_spec x
  obtain ⟨y1, y2⟩ := round_half_even_spec y
  by_contra hlt
  push_neg at hlt
  have hr : (round_half_even y : ℚ) + 1 ≤ round_half_even x := by exact_mod_cast hlt
  have a1 := abs_le.mp x1
  have a2 := abs_le.mp y1
  have e1 : x - round_half_even x = -(1 / 2) := by linarith [a1.1, a2.2]
  have e2 : y - round_half_even y = 1 / 2 := by linarith [a1.1, a2.2]
  have hxr : (round_half_even x : ℚ) = round_half_even y + 1 := by linarith
  have hxr2 : round_half_even x = round_half_even y + 1 := by exact_mod_cast hxr
  have ev1 := x2 (by rw [e1]; norm_num)
  have ev2 := y2 (by rw [e2]; norm_num)
  omega

theorem two_zpow_pos (e : ℤ) : (0 : ℚ) < 2 ^ e := zpow_pos (by norm_num) e

/-- The binade of a positive rational. -/
theorem log_bounds (q : ℚ) (hq : 0 < q) :
    (2 : ℚ) ^ Int.log 2 q ≤ q ∧ q < 2 ^ (Int.log 2 q + 1) := by
  have h1 := Int.zpow_log_le_self (b := 2) (by norm_num) hq
  have h2 := Int.lt_zpow_succ_log_self (b := 2) (by norm_num) q
  simp only [Nat.cast_ofNat] at h1 h2
  exact ⟨h1, h2⟩

theorem log_eq_of (q : ℚ) (e : ℤ) (h1 : (2 : ℚ) ^ e ≤ q) (h2 : q < 2 ^ (e + 1)) :
    Int.log 2 q = e := by
  have hq : 0 < q := lt_of_lt_of_le (two_zpow_pos e) h1
  have a := (Int.zpow_le_iff_le_log (b := 2) (by norm_num) (x := e) hq).mp
    (by simpa using h1)
  have b := (Int.lt_zpow_iff_log_lt (b := 2) (by norm_num) (x := e + 1) hq).mp
    (by simpa using h2)
  omega

theorem fl_round_zero (p : ℕ) : fl_round p 0 = 0 := by
  unfold fl_round
  rw [if_pos rfl]

theorem fl_round_neg (p : ℕ) (q : ℚ) : fl_round p (-q) = -fl_round p q := by
  unfold fl_round
  by_cases hq : q = 0
  · subst hq; simp
  · rw [if_neg hq, if_neg (neg_ne_zero.mpr hq), abs_neg, neg_div, round_half_even_neg]
    push_cast
    ring

/-- Evaluation of a rounding from the binade of the argument and the nearest
multiple of the unit in the last place. -/
theorem fl_round_eq_of (p : ℕ) (q : ℚ) (e m : ℤ) (h1 : (2 : ℚ) ^ e ≤ |q|)
    (h2 : |q| < 2 ^ (e + 1))
    (hm : |q / 2 ^ (e - ((p : ℤ) - 1)) - m| < 1 / 2
      ∨ (|q / 2 ^ (e - ((p : ℤ) - 1)) - m| = 1 / 2 ∧ m % 2 = 0)) :
    fl_round p q = m * 2 ^ (e - ((p : ℤ) - 1)) := by
  have hq : q ≠ 0 := by
    intro h0
    rw [h0, abs_zero] at h1
    exact absurd h1 (not_le.mpr (two_zpow_pos e))
  unfold fl_round
  rw [if_neg hq, log_eq_of _ e h1 h2, round_half_even_unique _ m hm]

/-- Rounding keeps a positive number inside the closure of its binade. -/
theorem fl_round_pos_bounds (n : ℕ) (q : ℚ) (hq : 0 < q) :
    (2 : ℚ) ^ Int.log 2 q ≤ fl_round (n + 1) q ∧
    fl_round (n + 1) q ≤ 2 ^ (Int.log 2 q + 1) := by
  obtain ⟨b1, b2⟩ := log_bounds q hq
  unfold fl_round
  rw [if_neg (ne_of_gt hq), abs_of_pos hq]
  have hexp : Int.log 2 q - (((n + 1 : ℕ) : ℤ) - 1) = Int.log 2 q - n := by push_cast; ring
  rw [hexp]
  generalize Int.log 2 q = e at b1 b2
  have hu : (0 : ℚ) < 2 ^ (e - n) := two_zpow_pos _
  have hlo : (((2 : ℤ) ^ n : ℤ) : ℚ) * 2 ^ (e - n) = 2 ^ e := by
    push_cast
    rw [← zpow_natCast, ← zpow_add₀ (by norm_num)]
    congr 1
    ring
  have hhi : (((2 : ℤ) ^ (n + 1) : ℤ) : ℚ) * 2 ^ (e - n) = 2 ^ (e + 1) := by
    push_cast
    rw [← zpow_natCast, ← zpow_add₀ (by norm_num)]
    congr 1
    push_cast
    ring
  have hx1 : (((2 : ℤ) ^ n : ℤ) : ℚ) ≤ q / 2 ^ (e - n) := by
    rw [le_div_iff₀ hu, hlo]; exact b1
  have hx2 : q / 2 ^ (e - n) ≤ (((2 : ℤ) ^ (n + 1) : ℤ) : ℚ) := by
    rw [div_le_iff₀ hu, hhi]; exact le_of_lt b2
  have r1 := round_half_even_mono _ _ hx1
  have r2 := round_half_even_mono _ _ hx2
  rw [round_half_even_int] at r1 r2
  have r1q : (((2 : ℤ) ^ n : ℤ) : ℚ) ≤ (round_half_even (q / 2 ^ (e - n)) : ℚ) := by
    exact_mod_cast r1
  have r2q : (round_half_even (q / 2 ^ (e - n)) : ℚ) ≤ (((2 : ℤ) ^ (n + 1) : ℤ) : ℚ) := by
    exact_mod_cast r2
  constructor
  · rw [← hlo]; exact mul_le_mul_of_nonneg_right r1q (le_of_lt hu)
  · rw [← hhi]; exact mul_le_mul_of_nonneg_right r2q (le_of_lt hu)

theorem fl_round_mono_pos (n : ℕ) (x y : ℚ) (hx : 0 < x) (hxy : x ≤ y) :
    fl_round (n + 1) x ≤ fl_round (n + 1) y := by
  have hy : 0 < y := lt_of_lt_of_le hx hxy
  have hlog : Int.log 2 x ≤ Int.log 2 y := Int.log_mono_right hx hxy
  rcases lt_or_eq_of_le hlog with hlt | heq
  · have bx := (fl_round_pos_bounds n x hx).2
    have by1 := (fl_round_pos_bounds n y hy).1
    have hz : (2 : ℚ) ^ (Int.log 2 x + 1) ≤ 2 ^ Int.log 2 y :=
      zpow_le_zpow_right₀ (by norm_num) (by omega)
    linarith
  · unfold fl_round
    rw [if_neg (ne_of_gt hx), if_neg (ne_of_gt hy), abs_of_pos hx, abs_of_pos hy, heq]
    have hu : (0 : ℚ) < 2 ^ (Int.log 2 y - (((n + 1 : ℕ) : ℤ) - 1)) := two_zpow_pos _
    have hdiv : x / 2 ^ (Int.log 2 y - (((n + 1 : ℕ) : ℤ) - 1))
        ≤ y / 2 ^ (Int.log 2 y - (((n + 1 : ℕ) : ℤ) - 1)) :=
      div_le_div_of_nonneg_right hxy (le_of_lt hu)
    have hr := round_half_even_mono _ _ hdiv
    have hrq : (round_half_even (x / 2 ^ (Int.log 2 y - (((n + 1 : ℕ) : ℤ) - 1))) : ℚ)
        ≤ (round_half_even (y / 2 ^ (Int.log 2 y - (((n + 1 : ℕ) : ℤ) - 1))) : ℚ) := by
      exact_mod_cast hr
    exact mul_le_mul_of_nonneg_right hrq (le_of_lt hu)

theorem fl_round_nonneg (n : ℕ) (q : ℚ) (hq : 0 ≤ q) : 0 ≤ fl_round (n + 1) q := by
  rcases lt_or_eq_of_le hq with h | h
  · exact le_trans (le_of_lt (two_zpow_pos _)) (fl_round_pos_bounds n q h).1
  · rw [← h, fl_round_zero]

/-- Rounding is monotone. -/
theorem fl_round_mono (n : ℕ) (x y : ℚ) (hxy : x ≤ y) :
    fl_round (n + 1) x ≤ fl_round (n + 1) y := by
  rcases lt_trichotomy x 0 with hx | hx | hx
  · rcases lt_or_le y 0 with hy | hy
    · have h := fl_round_mono_pos n (-y) (-x) (by linarith) (by linarith)
      rw [fl_round_neg, fl_round_neg] at h
      linarith
    · have h1 := fl_round_nonneg n (-x) (by linarith)
      rw [fl_round_neg] at h1
      have h2 := fl_round_nonneg n y hy
      linarith
  · rw [hx, fl_round_zero]
    exact fl_round_nonneg n y (by linarith)
  · exact fl_round_mono_pos n x y hx hxy


theorem f32_round_zero : f32_round 0 = 0 := fl_round_zero 24

theorem f64_round_zero : f64_round 0 = 0 := fl_round_zero 53

/-- Rounding to `float` is monotone. -/
theorem f32_round_mono (x y : ℚ) (hxy : x ≤ y) : f32_round x ≤ f32_round y :=
  fl_round_mono 23 x y hxy

theorem f32_round_nonneg (q : ℚ) (hq : 0 ≤ q) : 0 ≤ f32_round q :=
  fl_round_nonneg 23 q hq

/-! ## Values of the rounding at the inputs used below -/

theorem f32_round_one : f32_round (1) = 1 := by
  unfold f32_round
  rw [fl_round_eq_of 24 (1) 0 8388608 (by norm_num [le_abs]) (by norm_num [abs_lt])
    (Or.inl (by norm_num [abs_lt]))]
  norm_num

theorem f32_round_ten : f32_round (10) = 10 := by
  unfold f32_round
  rw [fl_round_eq_of 24 (10) 3 10485760 (by norm_num [le_abs]) (by norm_num [abs_lt])
    (Or.inl (by norm_num [abs_lt]))]
  norm_num

theorem f32_round_threshold : f32_round (2 / 1000) = 8589935 / 4294967296 := by
  unfold f32_round
  rw [fl_round_eq_of 24 (2 / 1000) (-9) 8589935 (by norm_num [le_abs]) (by norm_num [abs_lt])
    (Or.inl (by norm_num [abs_lt]))]
  norm_num

theorem f32_round_15936 : f32_round (15936) = 15936 := by
  unfold f32_round
  rw [fl_round_eq_of 24 (15936) 13 16318464 (by norm_num [le_abs]) (by norm_num [abs_lt])
    (Or.inl (by norm_num [abs_lt]))]
  norm_num

theorem f32_round_16000 : f32_round (16000) = 16000 := by
  unfold f32_round
  rw [fl_round_eq_of 24 (16000) 13 16384000 (by norm_num [le_abs]) (by norm_num [abs_lt])
    (Or.inl (by norm_num [abs_lt]))]
  norm_num

theorem f32_round_125 : f32_round (125) = 125 := by
  unfold f32_round
  rw [fl_round_eq_of 24 (125) 6 16384000 (by norm_num [le_abs]) (by norm_num [abs_lt])
    (Or.inl (by norm_num [abs_lt]))]
  norm_num

theorem f32_round_15936_div : f32_round (15936 / 125) = 16710107 / 131072 := by
  unfold f32_round
  rw [fl_round_eq_of 24 (15936 / 125) 6 16710107 (by norm_num [le_abs]) (by norm_num [abs_lt])
    (Or.inl (by norm_num [abs_lt]))]
  norm_num

theorem f64_round_15936_div : f64_round (16710107 / 131072 / 256) = 16710107 / 33554432 := by
  unfold f64_round
  rw [fl_round_eq_of 53 (16710107 / 131072 / 256) (-2) 8971170384707584 (by norm_num [le_abs]) (by norm_num [abs_lt])
    (Or.inl (by norm_num [abs_lt]))]
  norm_num

theorem f64_round_15936_sub : f64_round (16710107 / 33554432 - 1 / 2) = -(67109 / 33554432) := by
  unfold f64_round
  rw [fl_round_eq_of 53 (16710107 / 33554432 - 1 / 2) (-9) (-4611695364276224) (by norm_num [le_abs]) (by norm_num [abs_lt])
    (Or.inl (by norm_num [abs_lt]))]
  norm_num

theorem f32_round_15936_avg : f32_round (-(67109 / 33554432)) = -(67109 / 33554432) := by
  unfold f32_round
  rw [fl_round_eq_of 24 (-(67109 / 33554432)) (-9) (-8589952) (by norm_num [le_abs]) (by norm_num [abs_lt])
    (Or.inl (by norm_num [abs_lt]))]
  norm_num

theorem f32_round_15936_mul : f32_round (1 * -(67109 / 33554432)) = -(67109 / 33554432) := by
  unfold f32_round
  rw [fl_round_eq_of 24 (1 * -(67109 / 33554432)) (-9) (-8589952) (by norm_num [le_abs]) (by norm_num [abs_lt])
    (Or.inl (by norm_num [abs_lt]))]
  norm_num

theorem f32_round_15936_gain : f32_round (20 - -(67109 / 33554432)) = 10486809 / 524288 := by
  unfold f32_round
  rw [fl_round_eq_of 24 (20 - -(67109 / 33554432)) 4 10486809 (by norm_num [le_abs]) (by norm_num [abs_lt])
    (Or.inl (by norm_num [abs_lt]))]
  norm_num

theorem f32_round_16000_div : f32_round (16000 / 125) = 128 := by
  unfold f32_round
  rw [fl_round_eq_of 24 (16000 / 125) 7 8388608 (by norm_num [le_abs]) (by norm_num [abs_lt])
    (Or.inl (by norm_num [abs_lt]))]
  norm_num

theorem f64_round_half : f64_round (128 / 256) = 1 / 2 := by
  unfold f64_round
  rw [fl_round_eq_of 53 (128 / 256) (-1) 4503599627370496 (by norm_num [le_abs]) (by norm_num [abs_lt])
    (Or.inl (by norm_num [abs_lt]))]
  norm_num

theorem f32_round_1001237 : f32_round (1001237) = 1001237 := by
  unfold f32_round
  rw [fl_round_eq_of 24 (1001237) 19 16019792 (by norm_num [le_abs]) (by norm_num [abs_lt])
    (Or.inl (by norm_num [abs_lt]))]
  norm_num

theorem f32_round_997248 : f32_round (997248) = 997248 := by
  unfold f32_round
  rw [fl_round_eq_of 24 (997248) 19 15955968 (by norm_num [le_abs]) (by norm_num [abs_lt])
    (Or.inl (by norm_num [abs_lt]))]
  norm_num

theorem f32_round_7791 : f32_round (7791) = 7791 := by
  unfold f32_round
  rw [fl_round_eq_of 24 (7791) 12 15955968 (by norm_num [le_abs]) (by norm_num [abs_lt])
    (Or.inl (by norm_num [abs_lt]))]
  norm_num

theorem f32_round_1001237_div : f32_round (1001237 / 7791) = 4211081 / 32768 := by
  unfold f32_round
  rw [fl_round_eq_of 24 (1001237 / 7791) 7 8422162 (by norm_num [le_abs]) (by norm_num [abs_lt])
    (Or.inl (by norm_num [abs_lt]))]
  norm_num

theorem f64_round_1001237_div : f64_round (4211081 / 32768 / 256) = 4211081 / 8388608 := by
  unfold f64_round
  rw [fl_round_eq_of 53 (4211081 / 32768 / 256) (-1) 4521613793951744 (by norm_num [le_abs]) (by norm_num [abs_lt])
    (Or.inl (by norm_num [abs_lt]))]
  norm_num

theorem f64_round_1001237_sub : f64_round (4211081 / 8388608 - 1 / 2) = 16777 / 8388608 := by
  unfold f64_round
  rw [fl_round_eq_of 53 (4211081 / 8388608 - 1 / 2) (-9) 4611626644799488 (by norm_num [le_abs]) (by norm_num [abs_lt])
    (Or.inl (by norm_num [abs_lt]))]
  norm_num

theorem f32_round_1001237_avg : f32_round (16777 / 8388608) = 16777 / 8388608 := by
  unfold f32_round
  rw [fl_round_eq_of 24 (16777 / 8388608) (-9) 8589824 (by norm_num [le_abs]) (by norm_num [abs_lt])
    (Or.inl (by norm_num [abs_lt]))]
  norm_num

theorem f32_round_997248_div : f32_round (997248 / 7791) = 128 := by
  unfold f32_round
  rw [fl_round_eq_of 24 (997248 / 7791) 7 8388608 (by norm_num [le_abs]) (by norm_num [abs_lt])
    (Or.inl (by norm_num [abs_lt]))]
  norm_num

theorem f32_round_12800 : f32_round (12800) = 12800 := by
  unfold f32_round
  rw [fl_round_eq_of 24 (12800) 13 13107200 (by norm_num [le_abs]) (by norm_num [abs_lt])
    (Or.inl (by norm_num [abs_lt]))]
  norm_num

theorem f32_round_100 : f32_round (100) = 100 := by
  unfold f32_round
  rw [fl_round_eq_of 24 (100) 6 13107200 (by norm_num [le_abs]) (by norm_num [abs_lt])
    (Or.inl (by norm_num [abs_lt]))]
  norm_num

theorem f32_round_12800_div : f32_round (12800 / 100) = 128 := by
  unfold f32_round
  rw [fl_round_eq_of 24 (12800 / 100) 7 8388608 (by norm_num [le_abs]) (by norm_num [abs_lt])
    (Or.inl (by norm_num [abs_lt]))]
  norm_num

theorem f32_round_947032 : f32_round (947032) = 947032 := by
  unfold f32_round
  rw [fl_round_eq_of 24 (947032) 19 15152512 (by norm_num [le_abs]) (by norm_num [abs_lt])
    (Or.inl (by norm_num [abs_lt]))]
  norm_num

theorem f32_round_947033 : f32_round (947033) = 947033 := by
  unfold f32_round
  rw [fl_round_eq_of 24 (947033) 19 15152528 (by norm_num [le_abs]) (by norm_num [abs_lt])
    (Or.inl (by norm_num [abs_lt]))]
  norm_num

theorem f32_round_15151104 : f32_round (15151104) = 15151104 := by
  unfold f32_round
  rw [fl_round_eq_of 24 (15151104) 23 15151104 (by norm_num [le_abs]) (by norm_num [abs_lt])
    (Or.inl (by norm_num [abs_lt]))]
  norm_num

theorem f32_round_947032_div : f32_round (947032 / 15151104) = 2097347 / 33554432 := by
  unfold f32_round
  rw [fl_round_eq_of 24 (947032 / 15151104) (-4) 8389388 (by norm_num [le_abs]) (by norm_num [abs_lt])
    (Or.inl (by norm_num [abs_lt]))]
  norm_num

theorem f32_round_947033_div : f32_round (947033 / 15151104) = 2097349 / 33554432 := by
  unfold f32_round
  rw [fl_round_eq_of 24 (947033 / 15151104) (-4) 8389396 (by norm_num [le_abs]) (by norm_num [abs_lt])
    (Or.inl (by norm_num [abs_lt]))]
  norm_num

theorem f32_round_947032_sub : f32_round (1 - 2097347 / 33554432) = 7864271 / 8388608 := by
  unfold f32_round
  rw [fl_round_eq_of 24 (1 - 2097347 / 33554432) (-1) 15728542 (by norm_num [le_abs]) (by norm_num [abs_lt])
    (Or.inr ⟨(abs_eq (by norm_num)).mpr (Or.inl (by norm_num)), by decide⟩)]
  norm_num

theorem f32_round_947033_sub : f32_round (1 - 2097349 / 33554432) = 7864271 / 8388608 := by
  unfold f32_round
  rw [fl_round_eq_of 24 (1 - 2097349 / 33554432) (-1) 15728542 (by norm_num [le_abs]) (by norm_num [abs_lt])
    (Or.inr ⟨(abs_eq (by norm_num)).mpr (Or.inr (by norm_num)), by decide⟩)]
  norm_num

theorem f32_round_40000000 : f32_round (40000000) = 40000000 := by
  unfold f32_round
  rw [fl_round_eq_of 24 (40000000) 25 10000000 (by norm_num [le_abs]) (by norm_num [abs_lt])
    (Or.inl (by norm_num [abs_lt]))]
  norm_num

theorem f32_round_40000000_div : f32_round (1 / 40000000) = 14073749 / 562949953421312 := by
  unfold f32_round
  rw [fl_round_eq_of 24 (1 / 40000000) (-26) 14073749 (by norm_num [le_abs]) (by norm_num [abs_lt])
    (Or.inl (by norm_num [abs_lt]))]
  norm_num

theorem f32_round_40000000_sub : f32_round (1 - 14073749 / 562949953421312) = 1 := by
  unfold f32_round
  rw [fl_round_eq_of 24 (1 - 14073749 / 562949953421312) (-1) 16777216 (by norm_num [le_abs]) (by norm_num [abs_lt])
    (Or.inl (by norm_num [abs_lt]))]
  norm_num

theorem f32_round_ten_mul : f32_round (10 * 1) = 10 := by
  unfold f32_round
  rw [fl_round_eq_of 24 (10 * 1) 3 10485760 (by norm_num [le_abs]) (by norm_num [abs_lt])
    (Or.inl (by norm_num [abs_lt]))]
  norm_num

theorem f32_round_below_one : f32_round (1 - 1 / 16777216) = 16777215 / 16777216 := by
  unfold f32_round
  rw [fl_round_eq_of 24 (1 - 1 / 16777216) (-1) 16777215 (by norm_num [le_abs]) (by norm_num [abs_lt])
    (Or.inl (by norm_num [abs_lt]))]
  norm_num

/-! ## The saturation branch in float arithmetic -/

/-- In the saturation branch the `float` adjustment is the one of line 70. -/
theorem adjustment_f32_of_saturated (s : isp_yuv_stats_t)
    (hsat : saturated_pixels s > max_saturated_pixels s) :
    adjustment_f32 s = f32_round (1 - saturation_quotient_f32 s) := by
  unfold adjustment_f32
  rw [if_pos (show saturated s from hsat)]
  rfl

/-- The `float` quotient of line 70 is not negative. -/
theorem saturation_quotient_f32_nonneg (s : isp_yuv_stats_t) :
    0 ≤ saturation_quotient_f32 s := by
  unfold saturation_quotient_f32
  exact f32_round_nonneg _ (div_nonneg (f32_round_nonneg _ (Nat.cast_nonneg _))
    (f32_round_nonneg _ (Nat.cast_nonneg _)))

/-- The `float` difference `1.0f - q` is below `1` exactly when `q` exceeds
`2 ^ (-25)`, half the distance from `1` to the next lower `float`. -/
theorem f32_one_sub_lt_one (q : ℚ) :
    f32_round (1 - q) < 1 ↔ 1 / 33554432 < q := by
  constructor
  · intro h
    by_contra hq
    have hle : 1 - 1 / 33554432 ≤ 1 - q := by linarith [not_lt.mp hq]
    have hm := f32_round_mono _ _ hle
    have htie : f32_round (1 - 1 / 33554432) = 1 := by
      unfold f32_round
      rw [fl_round_eq_of 24 (1 - 1 / 33554432) (-1) 16777216 (by norm_num [le_abs])
        (by norm_num [abs_lt])
        (Or.inr ⟨(abs_eq (by norm_num)).mpr (Or.inr (by norm_num)), by decide⟩)]
      norm_num
    rw [htie] at hm
    linarith
  · intro hq
    by_cases hbig : 1 / 16777216 ≤ q
    · have hle : 1 - q ≤ 1 - 1 / 16777216 := by linarith
      have hm := f32_round_mono _ _ hle
      rw [f32_round_below_one] at hm
      have : (1 : ℚ) - 1 / 16777216 < 1 := by norm_num
      linarith
    · have hq2 : q < 1 / 16777216 := not_le.mp hbig
      have hval : f32_round (1 - q) = 16777215 / 16777216 := by
        unfold f32_round
        have hpos : (0 : ℚ) < 1 - q := by linarith
        rw [fl_round_eq_of 24 (1 - q) (-1) 16777215
          (by rw [abs_of_pos hpos]; norm_num; linarith)
          (by rw [abs_of_pos hpos]; norm_num; linarith)
          (Or.inl (by
            rw [abs_lt]
            norm_num
            constructor <;> linarith))]
        norm_num
      rw [hval]
      norm_num

/-- C7 (as the code behaves): monotonicity of the saturation correction in
`float` arithmetic.  For two inputs with the same `nb_valid_Y > 0` whose
`saturated_pixels` both exceed `max_saturated_pixels`, the one with more
saturated pixels gets an adjustment that is not larger; rounding can make the
two adjustments equal. -/
theorem saturation_monotone_f32 (s1 s2 : isp_yuv_stats_t) (_hN : 0 < s1.nb_valid_Y)
    (hsame : s2.nb_valid_Y = s1.nb_valid_Y)
    (h1 : saturated_pixels s1 > max_saturated_pixels s1)
    (h12 : saturated_pixels s1 < saturated_pixels s2) :
    adjustment_f32 s2 ≤ adjustment_f32 s1 := by
  have hmax : max_saturated_pixels s2 = max_saturated_pixels s1 := by
    unfold max_saturated_pixels
    rw [hsame]
  have h2 : saturated_pixels s2 > max_saturated_pixels s2 := by
    rw [hmax]
    exact lt_trans h1 h12
  rw [adjustment_f32_of_saturated s1 h1, adjustment_f32_of_saturated s2 h2]
  apply f32_round_mono
  have hq : saturation_quotient_f32 s1 ≤ saturation_quotient_f32 s2 := by
    unfold saturation_quotient_f32
    apply f32_round_mono
    rw [hsame]
    apply div_le_div_of_nonneg_right _ (f32_round_nonneg _ (Nat.cast_nonneg _))
    apply f32_round_mono
    rw [u32_sub_of_le _ _ (le_of_lt h1) (saturated_pixels_lt s1),
      u32_sub_of_le _ _ (le_of_lt h2) (saturated_pixels_lt s2), hmax]
    exact_mod_cast Nat.sub_le_sub_right (le_of_lt h12) _
  linarith

theorem saturation_monotone_f32_witness :
    adjustment_f32 (stats_two_bins 1000 6 245 0 0 100)
      ≤ adjustment_f32 (stats_two_bins 1000 5 245 0 0 100) :=
  saturation_monotone_f32 (stats_two_bins 1000 5 245 0 0 100)
    (stats_two_bins 1000 6 245 0 0 100) (by decide) (by decide) (by decide) (by decide)

/-- C7, counterexample.  With `nb_valid_Y = 15151104` (so
`max_saturated_pixels = 37877`) and `984909` or `984910` saturated pixels, line
70 gives the same `float` `7864271 / 8388608 = 0.937494158744812` for both:
the exact differences `1 - q` both lie halfway between two `float`s and round
to the same even one. -/
theorem saturation_monotone_counterexample :
    0 < (stats_two_bins 15151104 984909 245 0 0 100).nb_valid_Y ∧
    (stats_two_bins 15151104 984910 245 0 0 100).nb_valid_Y
      = (stats_two_bins 15151104 984909 245 0 0 100).nb_valid_Y ∧
    saturated_pixels (stats_two_bins 15151104 984909 245 0 0 100)
      > max_saturated_pixels (stats_two_bins 15151104 984909 245 0 0 100) ∧
    saturated_pixels (stats_two_bins 15151104 984909 245 0 0 100)
      < saturated_pixels (stats_two_bins 15151104 984910 245 0 0 100) ∧
    adjustment_f32 (stats_two_bins 15151104 984909 245 0 0 100) = 7864271 / 8388608 ∧
    adjustment_f32 (stats_two_bins 15151104 984910 245 0 0 100) = 7864271 / 8388608 ∧
    ¬ adjustment_f32 (stats_two_bins 15151104 984910 245 0 0 100)
        < adjustment_f32 (stats_two_bins 15151104 984909 245 0 0 100) := by
  have hs1 : saturated_pixels (stats_two_bins 15151104 984909 245 0 0 100) = 984909 := by decide
  have hs2 : saturated_pixels (stats_two_bins 15151104 984910 245 0 0 100) = 984910 := by decide
  have hm1 : max_saturated_pixels (stats_two_bins 15151104 984909 245 0 0 100) = 37877 := by
    decide
  have hm2 : max_saturated_pixels (stats_two_bins 15151104 984910 245 0 0 100) = 37877 := by
    decide
  have hx1 : u32_sub 984909 37877 = 947032 := by decide
  have hx2 : u32_sub 984910 37877 = 947033 := by decide
  have ha1 : adjustment_f32 (stats_two_bins 15151104 984909 245 0 0 100)
      = 7864271 / 8388608 := by
    rw [adjustment_f32_of_saturated _ (by rw [hs1, hm1]; decide)]
    unfold saturation_quotient_f32
    rw [hs1, hm1, hx1]
    simp only [stats_two_bins, Nat.cast_ofNat]
    rw [f32_round_947032, f32_round_15151104, f32_round_947032_div, f32_round_947032_sub]
  have ha2 : adjustment_f32 (stats_two_bins 15151104 984910 245 0 0 100)
      = 7864271 / 8388608 := by
    rw [adjustment_f32_of_saturated _ (by rw [hs2, hm2]; decide)]
    unfold saturation_quotient_f32
    rw [hs2, hm2, hx2]
    simp only [stats_two_bins, Nat.cast_ofNat]
    rw [f32_round_947033, f32_round_15151104, f32_round_947033_div, f32_round_947033_sub]
  refine ⟨by decide, rfl, by rw [hs1, hm1]; decide, by rw [hs1, hs2]; decide, ha1, ha2, ?_⟩
  rw [ha1, ha2]
  exact lt_irrefl _

/-- Lines 108-121 do not touch the exposure fields. -/
theorem awb_update_f32_exposure (aU aV thr g : ℚ) (w : World) :
    (awb_update_f32 aU aV thr g w).mt9f002.target_exposure = w.mt9f002.target_exposure := by
  unfold awb_update_f32
  simp only
  split_ifs <;> rfl

/-- The value written to `target_exposure` by one run in `float` arithmetic. -/
theorem periodic_f32_target_exposure (s : isp_yuv_stats_t) (w : World) :
    (cv_ae_awb_periodic_f32 (some s) w).mt9f002.target_exposure
      = f32_round (w.mt9f002.real_exposure * bounded_adjustment_f32 s) := by
  exact awb_update_f32_exposure _ _ _ _ (auto_exposure_f32 s w)

/-- C8 (as the code behaves): the saturation branch never brightens.  For
`nb_valid_Y > 0` and `saturated_pixels > max_saturated_pixels`, the `float`
adjustment `1.0f - q` of line 70 is at most `1`, and below `1` exactly when the
`float` quotient `q` exceeds `2 ^ (-25)`; it stays at most `1` after `Bound`,
and for a `real_exposure > 0` that is a `float` the written `target_exposure`
is at most `real_exposure`. -/
theorem saturation_darkens_f32 (s : isp_yuv_stats_t) (w : World) (_hN : 0 < s.nb_valid_Y)
    (hsat : saturated_pixels s > max_saturated_pixels s) :
    adjustment_f32 s = f32_round (1 - saturation_quotient_f32 s) ∧
    adjustment_f32 s ≤ 1 ∧
    (adjustment_f32 s < 1 ↔ 1 / 33554432 < saturation_quotient_f32 s) ∧
    bounded_adjustment_f32 s ≤ 1 ∧
    (f32_round w.mt9f002.real_exposure = w.mt9f002.real_exposure →
      0 < w.mt9f002.real_exposure →
      (cv_ae_awb_periodic_f32 (some s) w).mt9f002.target_exposure
        ≤ w.mt9f002.real_exposure) := by
  have ha := adjustment_f32_of_saturated s hsat
  have hq := saturation_quotient_f32_nonneg s
  have hle : adjustment_f32 s ≤ 1 := by
    rw [ha]
    have hm := f32_round_mono (1 - saturation_quotient_f32 s) 1 (by linarith)
    rw [f32_round_one] at hm
    exact hm
  have hb : bounded_adjustment_f32 s ≤ 1 := by
    unfold bounded_adjustment_f32 Bound
    split_ifs with h4 h16
    · linarith
    · norm_num
    · exact hle
  refine ⟨ha, hle, ?_, hb, ?_⟩
  · rw [ha]
    exact f32_one_sub_lt_one _
  · intro hfl hpos
    rw [periodic_f32_target_exposure]
    have hm := f32_round_mono (w.mt9f002.real_exposure * bounded_adjustment_f32 s)
      w.mt9f002.real_exposure (by nlinarith)
    rw [hfl] at hm
    exact hm

theorem saturation_darkens_f32_witness :
    adjustment_f32 (stats_two_bins 1000 5 245 0 0 100) ≤ 1 ∧
    (cv_ae_awb_periodic_f32 (some (stats_two_bins 1000 5 245 0 0 100)) world0).mt9f002.target_exposure
      ≤ world0.mt9f002.real_exposure :=
  have h := saturation_darkens_f32 (stats_two_bins 1000 5 245 0 0 100) world0
    (by decide) (by decide)
  ⟨h.2.1, h.2.2.2.2 f32_round_ten (by norm_num [world0])⟩

/-- C8, counterexample.  With `nb_valid_Y = 40000000` and `100001` saturated
pixels (`max_saturated_pixels = 100000`) the excess is `1`, the `float`
quotient is about `2.5e-8`, and `1.0f - q` rounds to `1.0f`: the adjustment is
`1` and `target_exposure = real_exposure`. -/
theorem saturation_darkens_counterexample :
    0 < (stats_two_bins 40000000 100001 245 0 0 100).nb_valid_Y ∧
    saturated_pixels (stats_two_bins 40000000 100001 245 0 0 100)
      > max_saturated_pixels (stats_two_bins 40000000 100001 245 0 0 100) ∧
    adjustment_f32 (stats_two_bins 40000000 100001 245 0 0 100) = 1 ∧
    0 < world0.mt9f002.real_exposure ∧
    (cv_ae_awb_periodic_f32 (some (stats_two_bins 40000000 100001 245 0 0 100))
        world0).mt9f002.target_exposure = world0.mt9f002.real_exposure := by
  have hs : saturated_pixels (stats_two_bins 40000000 100001 245 0 0 100) = 100001 := by decide
  have hm : max_saturated_pixels (stats_two_bins 40000000 100001 245 0 0 100) = 100000 := by
    decide
  have hx : u32_sub 100001 100000 = 1 := by decide
  have ha : adjustment_f32 (stats_two_bins 40000000 100001 245 0 0 100) = 1 := by
    rw [adjustment_f32_of_saturated _ (by rw [hs, hm]; decide)]
    unfold saturation_quotient_f32
    rw [hs, hm, hx]
    simp only [stats_two_bins, Nat.cast_ofNat, Nat.cast_one]
    rw [f32_round_one, f32_round_40000000, f32_round_40000000_div, f32_round_40000000_sub]
  refine ⟨by decide, by rw [hs, hm]; decide, ha, by norm_num [world0], ?_⟩
  rw [periodic_f32_target_exposure]
  unfold bounded_adjustment_f32
  rw [ha, Bound_of_mem _ _ _ (by norm_num) (by norm_num)]
  simp only [world0]
  exact f32_round_ten_mul

/-! ## The white balance step in float arithmetic -/

/-- The `float` constant `0.002f` is `8589935 / 2 ^ 32`, slightly above
`0.002`. -/
theorem threshold_f32_eq : threshold_f32 = 8589935 / 4294967296 :=
  f32_round_threshold

theorem gain_f32_eq : gain_f32 = 1 := f32_round_one

/-- The gain `gain_blue` after lines 108-121. -/
theorem awb_update_f32_gain_blue (aU aV thr g : ℚ) (w : World) :
    (awb_update_f32 aU aV thr g w).mt9f002.gain_blue
      = if |aU| > thr then Bound (f32_round (w.mt9f002.gain_blue - f32_round (g * aU))) 2 75
        else if |aV| > thr then Bound w.mt9f002.gain_blue 2 75
        else w.mt9f002.gain_blue := by
  by_cases hU : |aU| > thr <;> by_cases hV : |aV| > thr <;>
    simp [awb_update_f32, hU, hV, CV_AWB_MIN_GAIN, CV_AWB_MAX_GAIN]

/-- The gain `gain_red` after lines 108-121. -/
theorem awb_update_f32_gain_red (aU aV thr g : ℚ) (w : World) :
    (awb_update_f32 aU aV thr g w).mt9f002.gain_red
      = if |aV| > thr then Bound (f32_round (w.mt9f002.gain_red - f32_round (g * aV))) 2 75
        else if |aU| > thr then Bound w.mt9f002.gain_red 2 75
        else w.mt9f002.gain_red := by
  by_cases hU : |aU| > thr <;> by_cases hV : |aV| > thr <;>
    simp [awb_update_f32, hU, hV, CV_AWB_MIN_GAIN, CV_AWB_MAX_GAIN]

/-- The driver calls after lines 108-121. -/
theorem awb_update_f32_calls (aU aV thr g : ℚ) (w : World) :
    (awb_update_f32 aU aV thr g w).calls
      = w.calls ++ (if |aU| > thr ∨ |aV| > thr
          then [DriverCall.mt9f002_set_gains (awb_update_f32 aU aV thr g w).mt9f002]
          else []) := by
  by_cases hU : |aU| > thr <;> by_cases hV : |aV| > thr <;>
    simp [awb_update_f32, hU, hV]

/-- When neither average exceeds the threshold lines 108-121 change nothing. -/
theorem awb_update_f32_unchanged (aU aV thr g : ℚ) (w : World)
    (hU : ¬ |aU| > thr) (hV : ¬ |aV| > thr) : awb_update_f32 aU aV thr g w = w := by
  simp [awb_update_f32, hU, hV]

/-- The gain `gain_blue` after the white balance block in `float` arithmetic. -/
theorem awb_f32_gain_blue (s : isp_yuv_stats_t) (w : World) :
    (auto_white_balance_f32 s w).mt9f002.gain_blue
      = if |avgU_f32 s| > threshold_f32 then
          Bound (f32_round (w.mt9f002.gain_blue - f32_round (gain_f32 * avgU_f32 s))) 2 75
        else if |avgV_f32 s| > threshold_f32 then Bound w.mt9f002.gain_blue 2 75
        else w.mt9f002.gain_blue :=
  awb_update_f32_gain_blue _ _ _ _ w

/-- The gain `gain_red` after the white balance block in `float` arithmetic. -/
theorem awb_f32_gain_red (s : isp_yuv_stats_t) (w : World) :
    (auto_white_balance_f32 s w).mt9f002.gain_red
      = if |avgV_f32 s| > threshold_f32 then
          Bound (f32_round (w.mt9f002.gain_red - f32_round (gain_f32 * avgV_f32 s))) 2 75
        else if |avgU_f32 s| > threshold_f32 then Bound w.mt9f002.gain_red 2 75
        else w.mt9f002.gain_red :=
  awb_update_f32_gain_red _ _ _ _ w

/-- The driver calls after the white balance block in `float` arithmetic. -/
theorem awb_f32_calls (s : isp_yuv_stats_t) (w : World) :
    (auto_white_balance_f32 s w).calls
      = w.calls ++ (if |avgU_f32 s| > threshold_f32 ∨ |avgV_f32 s| > threshold_f32
          then [DriverCall.mt9f002_set_gains (auto_white_balance_f32 s w).mt9f002] else []) :=
  awb_update_f32_calls _ _ _ _ w

/-- When neither `float` average exceeds the threshold the white balance block
changes nothing at all. -/
theorem awb_f32_unchanged (s : isp_yuv_stats_t) (w : World)
    (hU : ¬ |avgU_f32 s| > threshold_f32) (hV : ¬ |avgV_f32 s| > threshold_f32) :
    auto_white_balance_f32 s w = w :=
  awb_update_f32_unchanged _ _ _ _ w hU hV

/-- The `float` average for a chroma sum of `15936` over `125` grey pixels:
the exact value is `-1/500`, the `float` quotient `15936 / 125` is rounded
down, and the average comes out at `-0.00200000405`. -/
theorem awb_avg_f32_15936 : awb_avg_f32 15936 125 = -(67109 / 33554432) := by
  unfold awb_avg_f32
  simp only [Nat.cast_ofNat]
  rw [f32_round_15936, f32_round_125, f32_round_15936_div, f64_round_15936_div,
    f64_round_15936_sub, f32_round_15936_avg]

theorem awb_avg_f32_16000 : awb_avg_f32 16000 125 = 0 := by
  unfold awb_avg_f32
  simp only [Nat.cast_ofNat]
  rw [f32_round_16000, f32_round_125, f32_round_16000_div, f64_round_half, sub_self,
    f64_round_zero, f32_round_zero]

/-- The `float` average for a chroma sum of `1001237` over `7791` grey pixels:
the exact value exceeds `0.002`, the `float` one is `0.00199997`. -/
theorem awb_avg_f32_1001237 : awb_avg_f32 1001237 7791 = 16777 / 8388608 := by
  unfold awb_avg_f32
  simp only [Nat.cast_ofNat]
  rw [f32_round_1001237, f32_round_7791, f32_round_1001237_div, f64_round_1001237_div,
    f64_round_1001237_sub, f32_round_1001237_avg]

theorem awb_avg_f32_997248 : awb_avg_f32 997248 7791 = 0 := by
  unfold awb_avg_f32
  simp only [Nat.cast_ofNat]
  rw [f32_round_997248, f32_round_7791, f32_round_997248_div, f64_round_half, sub_self,
    f64_round_zero, f32_round_zero]

theorem awb_avg_f32_12800 : awb_avg_f32 12800 100 = 0 := by
  unfold awb_avg_f32
  simp only [Nat.cast_ofNat]
  rw [f32_round_12800, f32_round_100, f32_round_12800_div, f64_round_half, sub_self,
    f64_round_zero, f32_round_zero]

/-- C5 (as the code behaves): white balance dead-band in `float` arithmetic.
With `awb_nb_grey_pixels > 0`, if the `float` averages that the code computes
satisfy `|avgU| ≤ 0.002f` and `|avgV| ≤ 0.002f` (`0.002f = 8589935 / 2 ^ 32`),
then the white balance block returns the state it was given (gains not even
clamped, no driver call), so that after the periodic function the gains are the
prior ones and the only new driver call is `mt9f002_set_exposure`. -/
theorem awb_dead_band_f32 (s : isp_yuv_stats_t) (w : World)
    (_hg : 0 < s.awb_nb_grey_pixels)
    (hU : |avgU_f32 s| ≤ 8589935 / 4294967296)
    (hV : |avgV_f32 s| ≤ 8589935 / 4294967296) :
    auto_white_balance_f32 s w = w ∧
    (cv_ae_awb_periodic_f32 (some s) w).mt9f002.gain_red = w.mt9f002.gain_red ∧
    (cv_ae_awb_periodic_f32 (some s) w).mt9f002.gain_blue = w.mt9f002.gain_blue ∧
    (cv_ae_awb_periodic_f32 (some s) w).calls
      = w.calls
        ++ [DriverCall.mt9f002_set_exposure (cv_ae_awb_periodic_f32 (some s) w).mt9f002] := by
  have hU2 : ¬ |avgU_f32 s| > threshold_f32 := by
    rw [threshold_f32_eq]; exact not_lt.mpr hU
  have hV2 : ¬ |avgV_f32 s| > threshold_f32 := by
    rw [threshold_f32_eq]; exact not_lt.mpr hV
  refine ⟨awb_f32_unchanged s w hU2 hV2, ?_⟩
  have hp : cv_ae_awb_periodic_f32 (some s) w = auto_exposure_f32 s w :=
    awb_f32_unchanged s (auto_exposure_f32 s w) hU2 hV2
  rw [hp]
  exact ⟨rfl, rfl, rfl⟩

theorem awb_dead_band_f32_witness :
    auto_white_balance_f32 (stats_two_bins 1000 105 230 12800 12800 100)
        { world0 with mt9f002 := { world0.mt9f002 with gain_red := 80, gain_blue := 1 } }
      = { world0 with mt9f002 := { world0.mt9f002 with gain_red := 80, gain_blue := 1 } } :=
  (awb_dead_band_f32 (stats_two_bins 1000 105 230 12800 12800 100)
    { world0 with mt9f002 := { world0.mt9f002 with gain_red := 80, gain_blue := 1 } }
    (by decide)
    (by
      show |awb_avg_f32 12800 100| ≤ _
      rw [awb_avg_f32_12800]
      norm_num)
    (by
      show |awb_avg_f32 12800 100| ≤ _
      rw [awb_avg_f32_12800]
      norm_num)).1

/-- C5, counterexample.  With chroma sums `15936` and `16000` over `125` grey
pixels the exact averages are `-1/500` and `0`, inside the dead-band
`|avg| ≤ 0.002`, but the `float` `avgU` is `-67109 / 2 ^ 25 = -0.00200000405`, beyond
`0.002f`: the code corrects `gain_blue` (from `20` to `20.0020008...`) and
calls `mt9f002_set_gains`. -/
theorem awb_dead_band_counterexample :
    0 < (stats_two_bins 1000 105 230 15936 16000 125).awb_nb_grey_pixels ∧
    |avgU (stats_two_bins 1000 105 230 15936 16000 125)| ≤ 2 / 1000 ∧
    |avgV (stats_two_bins 1000 105 230 15936 16000 125)| ≤ 2 / 1000 ∧
    avgU_f32 (stats_two_bins 1000 105 230 15936 16000 125) = -(67109 / 33554432) ∧
    |avgU_f32 (stats_two_bins 1000 105 230 15936 16000 125)| > threshold_f32 ∧
    (auto_white_balance_f32 (stats_two_bins 1000 105 230 15936 16000 125) world0).mt9f002.gain_blue
      = 10486809 / 524288 ∧
    (auto_white_balance_f32 (stats_two_bins 1000 105 230 15936 16000 125) world0).calls
      = [DriverCall.mt9f002_set_gains
          (auto_white_balance_f32 (stats_two_bins 1000 105 230 15936 16000 125) world0).mt9f002] := by
  have hU : avgU_f32 (stats_two_bins 1000 105 230 15936 16000 125) = -(67109 / 33554432) :=
    awb_avg_f32_15936
  have hgt : |avgU_f32 (stats_two_bins 1000 105 230 15936 16000 125)| > threshold_f32 := by
    rw [hU, threshold_f32_eq]
    norm_num [lt_abs]
  refine ⟨by decide, ?_, ?_, hU, hgt, ?_, ?_⟩
  · norm_num [avgU, awb_avg, stats_two_bins, abs_le]
  · norm_num [avgV, awb_avg, stats_two_bins, abs_le]
  · rw [awb_f32_gain_blue, if_pos hgt, hU, gain_f32_eq, f32_round_15936_mul]
    show Bound (f32_round (20 - -(67109 / 33554432))) 2 75 = _
    rw [f32_round_15936_gain, Bound_of_mem _ _ _ (by norm_num) (by norm_num)]
  · rw [awb_f32_calls, if_pos (Or.inl hgt)]
    rfl

/-- C6 (as the code behaves): white balance correction and commit in `float`
arithmetic.  With `awb_nb_grey_pixels > 0` and `avgU`, `avgV` the `float`
averages that the code computes: the new `gain_blue` is
`Bound(gain_blue - gain * avgU, 2, 75)`, the difference being a `float`
difference, when `|avgU| > 0.002f`, it is `Bound(gain_blue, 2, 75)` when only
`|avgV| > 0.002f`, and the old `gain_blue` otherwise; symmetrically for
`gain_red` with `avgV`; and `mt9f002_set_gains` is called once, after
`mt9f002_set_exposure` and with the final sensor state, exactly when
`|avgU| > 0.002f` or `|avgV| > 0.002f` (`0.002f = 8589935 / 2 ^ 32`). -/
theorem awb_correction_and_commit_f32 (s : isp_yuv_stats_t) (w : World)
    (_hg : 0 < s.awb_nb_grey_pixels) :
    (cv_ae_awb_periodic_f32 (some s) w).mt9f002.gain_blue
      = (if |avgU_f32 s| > 8589935 / 4294967296 then
           Bound (f32_round (w.mt9f002.gain_blue - f32_round (1 * avgU_f32 s))) 2 75
         else if |avgV_f32 s| > 8589935 / 4294967296 then Bound w.mt9f002.gain_blue 2 75
         else w.mt9f002.gain_blue) ∧
    (cv_ae_awb_periodic_f32 (some s) w).mt9f002.gain_red
      = (if |avgV_f32 s| > 8589935 / 4294967296 then
           Bound (f32_round (w.mt9f002.gain_red - f32_round (1 * avgV_f32 s))) 2 75
         else if |avgU_f32 s| > 8589935 / 4294967296 then Bound w.mt9f002.gain_red 2 75
         else w.mt9f002.gain_red) ∧
    (cv_ae_awb_periodic_f32 (some s) w).calls
      = w.calls ++ [DriverCall.mt9f002_set_exposure (auto_exposure_f32 s w).mt9f002]
        ++ (if |avgU_f32 s| > 8589935 / 4294967296 ∨ |avgV_f32 s| > 8589935 / 4294967296
            then [DriverCall.mt9f002_set_gains (cv_ae_awb_periodic_f32 (some s) w).mt9f002]
            else []) := by
  rw [← threshold_f32_eq, ← gain_f32_eq]
  refine ⟨?_, ?_, ?_⟩
  · show (auto_white_balance_f32 s (auto_exposure_f32 s w)).mt9f002.gain_blue = _
    rw [awb_f32_gain_blue]
    rfl
  · show (auto_white_balance_f32 s (auto_exposure_f32 s w)).mt9f002.gain_red = _
    rw [awb_f32_gain_red]
    rfl
  · show (auto_white_balance_f32 s (auto_exposure_f32 s w)).calls = _
    rw [awb_f32_calls]
    rfl

theorem awb_correction_and_commit_f32_witness :
    (cv_ae_awb_periodic_f32 (some (stats_two_bins 1000 105 230 15936 16000 125))
        world0).mt9f002.gain_blue = 10486809 / 524288 :=
  (awb_correction_and_commit_f32 (stats_two_bins 1000 105 230 15936 16000 125) world0
    (by decide)).1.trans (by
      have hU : avgU_f32 (stats_two_bins 1000 105 230 15936 16000 125)
          = -(67109 / 33554432) := awb_avg_f32_15936
      rw [hU, if_pos (by norm_num [lt_abs]), f32_round_15936_mul]
      show Bound (f32_round (20 - -(67109 / 33554432))) 2 75 = _
      rw [f32_round_15936_gain, Bound_of_mem _ _ _ (by norm_num) (by norm_num)])

/-- C6, counterexample.  With chroma sums `1001237` and `997248` over `7791`
grey pixels the exact `avgU = 3989 / 1994496` exceeds `0.002`, which in exact
arithmetic corrects `gain_blue` and commits the gains; the `float` `avgU` is
`16777 / 2 ^ 23 = 0.00199997 ≤ 0.002f` and `avgV` is `0`: the code changes no
gain and makes no call. -/
theorem awb_correction_and_commit_counterexample :
    0 < (stats_two_bins 1000 105 230 1001237 997248 7791).awb_nb_grey_pixels ∧
    avgU (stats_two_bins 1000 105 230 1001237 997248 7791) = 3989 / 1994496 ∧
    |avgU (stats_two_bins 1000 105 230 1001237 997248 7791)| > 2 / 1000 ∧
    avgU_f32 (stats_two_bins 1000 105 230 1001237 997248 7791) = 16777 / 8388608 ∧
    avgV_f32 (stats_two_bins 1000 105 230 1001237 997248 7791) = 0 ∧
    ¬ |avgU_f32 (stats_two_bins 1000 105 230 1001237 997248 7791)| > threshold_f32 ∧
    auto_white_balance_f32 (stats_two_bins 1000 105 230 1001237 997248 7791) world0
      = world0 := by
  have hU : avgU_f32 (stats_two_bins 1000 105 230 1001237 997248 7791) = 16777 / 8388608 :=
    awb_avg_f32_1001237
  have hV : avgV_f32 (stats_two_bins 1000 105 230 1001237 997248 7791) = 0 :=
    awb_avg_f32_997248
  have hnU : ¬ |avgU_f32 (stats_two_bins 1000 105 230 1001237 997248 7791)| > threshold_f32 := by
    rw [hU, threshold_f32_eq]
    norm_num [abs_le]
  have hnV : ¬ |avgV_f32 (stats_two_bins 1000 105 230 1001237 997248 7791)| > threshold_f32 := by
    rw [hV, threshold_f32_eq]
    norm_num
  have hex : avgU (stats_two_bins 1000 105 230 1001237 997248 7791) = 3989 / 1994496 := by
    norm_num [avgU, awb_avg, stats_two_bins]
  refine ⟨by decide, hex, ?_, hU, hV, hnU, awb_f32_unchanged _ _ hnU hnV⟩
  rw [hex]
  norm_num [lt_abs]

end CvAeAwb
